import Mathlib

/-!
Verification of the resync/simulator sitemap codec (`src/resync/sitemap.py`)
against its natural-language specification.

The Python code is shallowly embedded: the `Sitemap` class becomes a
configuration record plus pure functions, `xml.etree` element trees become the
`XmlElem` inductive, file writes become an explicit trace of file operations,
and Python exceptions become the `PyErr` sum carried in `Except`.
The `Resource`, `Inventory`, `ChangeSet` and `Mapper` classes are imported by
`sitemap.py` from modules that are not part of the source tree; those are
modelled from the spec and are marked as such in their doc comments.
-/

/-- Namespace constant `SITEMAP_NS` from sitemap.py line 18. -/
def SITEMAP_NS : String := "http://www.sitemaps.org/schemas/sitemap/0.9"

/-- Namespace constant `RS_NS` from sitemap.py line 19. -/
def RS_NS : String := "http://www.openarchives.org/rs/terms/"

/-- Namespace constant `XHTML_NS` from sitemap.py line 20. -/
def XHTML_NS : String := "http://www.w3.org/1999/xhtml"

/-- A namespace-qualified tag in Python ElementTree notation:
`qn ns t` models the Python string `'\x7b' + ns + '\x7d' + t` used throughout
sitemap.py (e.g. `'\x7b'+SITEMAP_NS+'\x7d'+"loc"`). -/
def qn (ns t : String) : String := "\x7b" ++ ns ++ "\x7d" ++ t

/-- An `xml.etree.ElementTree.Element`: tag, attribute dictionary (modelled as
an association list in insertion order), optional text, child elements and an
optional tail string (used by the code only for pretty printing). -/
inductive XmlElem where
  | mk (tag : String) (attrib : List (String × String)) (text : Option String)
       (children : List XmlElem) (tail : Option String)

/-- Tag accessor for `XmlElem`. -/
def XmlElem.tag : XmlElem → String
  | .mk t _ _ _ _ => t

/-- Attribute-list accessor for `XmlElem`. -/
def XmlElem.attrib : XmlElem → List (String × String)
  | .mk _ a _ _ _ => a

/-- Text accessor for `XmlElem`. -/
def XmlElem.text : XmlElem → Option String
  | .mk _ _ x _ _ => x

/-- Children accessor for `XmlElem`. -/
def XmlElem.children : XmlElem → List XmlElem
  | .mk _ _ _ cs _ => cs

/-- `etree.find(tag)`: first direct child with the given tag, if any. -/
def findChild (e : XmlElem) (tag : String) : Option XmlElem :=
  e.children.find? (fun c => c.tag = tag)

/-- `etree.findtext(tag)`: text of the first direct child with the given tag;
an element without text yields the empty string, as in Python ElementTree. -/
def findtext (e : XmlElem) (tag : String) : Option String :=
  (findChild e tag).map (fun c => c.text.getD "")

/-- `element.attrib.get(key, None)` / `element.get(key, None)`. -/
def attrGet (e : XmlElem) (key : String) : Option String :=
  e.attrib.lookup key

/-- Modelled from the spec: the `Resource` / `ResourceChange` value records
(`resource.py` / `resource_change.py` are not under src/).  Per spec §3 a
resource has a required `uri`, an optional last-modification timestamp, an
optional size and an optional digest; `ResourceChange` extends it with an
optional change kind.  The timestamp is carried in its wire form (the string
the `lastmod` property renders and its setter parses), so that equality on
this field is exactly equality at the precision the wire format preserves.
The change kind is the string the code compares against
(`'CREATED' | 'UPDATED' | 'DELETED'`), `none` meaning a plain resource. -/
structure Resource where
  uri : String
  lastmod : Option String := none
  size : Option Int := none
  md5 : Option String := none
  changetype : Option String := none
deriving DecidableEq, Repr

/-- Capability attribute value: a single string or a list of strings
(`isinstance(value, str)` dispatch in `add_capabilities_to_etree`). -/
inductive AttrVal where
  | str (v : String)
  | multi (vs : List String)
deriving DecidableEq, Repr

/-- Capability mapping of a container: capability-URI to attribute-set
(spec §3), modelled as association lists in insertion order. -/
abbrev Caps := List (String × List (String × AttrVal))

/-- Modelled from the spec: the `Inventory` and `ChangeSet` resource
containers (`inventory.py` / `changeset.py` of the resync package are not
under src/).  Per spec §3 an Inventory keys resources by uri and rejects
duplicates with a reportable dedup condition; a ChangeSet is append-only and
permits repeated uris; both carry a capability mapping. -/
inductive Container where
  | inventory (resources : List (String × Resource)) (capabilities : Caps)
  | changeset (resources : List Resource) (capabilities : Caps)
deriving DecidableEq, Repr

/-- Python exceptions raised (or hit) by the sitemap code. -/
inductive PyErr where
  | exception (msg : String)
  | valueError (msg : String)
  | sitemapError (msg : String)
  | sitemapIndexError (msg : String) (etree : XmlElem)
  | attributeError (attr : String)
  | unboundLocalError (name : String)
  | typeError (msg : String)
  | mapperError
  | dupeError

/-- Messages the code sends to its logger as warnings, modelled structurally. -/
inductive Warning where
  | dupe (uri : String) (newLm oldLm : Option String)
  | badRsType (loc : String)
  | lastmodAndExpires (loc : String)
  | unsupportedFixity (t loc : String)
  | unknownFixity (t loc : String)
deriving DecidableEq, Repr

/-- Modelled from the spec: `Inventory.add` / `ChangeSet.add` (modules not
under src/).  Inventory: adding a resource whose uri is already present
raises the dedup condition (`InventoryDupeError`), otherwise the record is
appended; ChangeSet: records are always appended, duplicates permitted. -/
def Container.add : Container → Resource → Except PyErr Container
  | .inventory rs caps, r =>
    if (rs.lookup r.uri).isSome then .error .dupeError
    else .ok (.inventory (rs ++ [(r.uri, r)]) caps)
  | .changeset rs caps, r => .ok (.changeset (rs ++ [r]) caps)

/-- The resources of a container in iteration order (`for r in resources` /
`iter(resources)`); modelled from the spec for the missing container classes
(insertion order, which the spec leaves as an unspecified deterministic
order for Inventory). -/
def Container.toList : Container → List Resource
  | .inventory rs _ => rs.map Prod.snd
  | .changeset rs _ => rs

/-- `resources.capabilities` of a container. -/
def Container.capabilities : Container → Caps
  | .inventory _ caps => caps
  | .changeset _ caps => caps

/-- `resources[uri]` lookup on an Inventory-backed container. -/
def Container.resLookup : Container → String → Option Resource
  | .inventory rs _, u => rs.lookup u
  | .changeset _ _, _ => none

/-- Modelled from the spec: the `Mapper` collaborator (spec §6), with
`src_to_dst`/`dst_to_src` translation between published URIs and local paths;
`none` models a raised `MapperError` (no mapping rule matches). -/
structure Mapper where
  src_to_dst : String → Option String
  dst_to_src : String → Option String

/-- The configuration of a `Sitemap` instance (sitemap.py `__init__`,
lines 47-59), with the constructor's default values. -/
structure Sitemap where
  verbose : Bool := false
  pretty_xml : Bool := false
  allow_multifile : Bool := true
  mapper : Option Mapper := none
  max_sitemap_entries : Nat := 50000

/-- The statistics attributes of a `Sitemap` instance (sitemap.py
lines 61-64): `resources_created`, `sitemaps_created`, `content_length`
(all initialised to `None`) and `bytes_read` (initialised to 0). -/
structure Stats where
  resources_created : Option Nat := none
  sitemaps_created : Option Nat := none
  content_length : Option Nat := none
  bytes_read : Nat := 0
deriving DecidableEq, Repr

/-- The statistics as set by the constructor. -/
def initStats : Stats := {}

/-- The external world: retrieval collaborator (spec §6) returning, per URI,
an optional Content-Length header and the parsed element tree (the XML text
layer itself is the out-of-scope `xml.etree` library), plus the filesystem
modification time `os.stat(file).st_mtime` recorded after each part write. -/
structure World where
  fetch : String → Except String (Option Nat × XmlElem)
  mtime : String → Nat

/-- A file operation performed by `Sitemap.write`: `open(file, 'w')`
(which creates/truncates the file) and the subsequent `f.write` of a
serialized document. -/
inductive FOp where
  | openW (file : String)
  | writeDoc (file : String) (doc : XmlElem)

/-- Prefix test on character lists (kernel-evaluable). -/
def strIsPre : List Char → List Char → Bool
  | [], _ => true
  | _ :: _, [] => false
  | c :: cs, d :: ds => c = d && strIsPre cs ds

/-- `is_file_uri` (sitemap.py lines 539-541): anchored regex matches of
`file:` or `/`, modelled as prefix tests over the character lists. -/
def is_file_uri (uri : String) : Bool :=
  strIsPre "file:".data uri.data || strIsPre "/".data uri.data

/-- Python `"%05d" % k`: decimal rendering left-padded with zeros to width 5. -/
def fmt5 (k : Nat) : String :=
  let s := toString k
  String.join (List.replicate (5 - s.length) "0") ++ s

/-- `resource_etree_element` (sitemap.py lines 217-258): the element for one
resource.  A `loc` child always carries the uri; a timestamp is rendered as a
`lastmod` child (bare, or with an `rs:type` attribute for kind
created/updated) or as an `expires` child for kind deleted, any other
non-absent kind raising `Exception`; optional `rs:size` and `rs:fixity`
children follow.  (The raised message is modelled without the quote
characters of the Python format string.) -/
def resource_etree_element (s : Sitemap) (resource : Resource)
    (element_name : String) : Except PyErr XmlElem :=
  let locE := XmlElem.mk "loc" [] (some resource.uri) [] none
  let tsE : Except PyErr (List XmlElem) :=
    match resource.lastmod with
    | none => .ok []
    | some lm =>
      match resource.changetype with
      | none => .ok [XmlElem.mk "lastmod" [] (some lm) [] none]
      | some ct =>
        if ct = "CREATED" then
          .ok [XmlElem.mk "lastmod" [("rs:type", "created")] (some lm) [] none]
        else if ct = "UPDATED" then
          .ok [XmlElem.mk "lastmod" [("rs:type", "updated")] (some lm) [] none]
        else if ct = "DELETED" then
          .ok [XmlElem.mk "expires" [] (some lm) [] none]
        else
          .error (.exception ("Unknown change type " ++ ct ++ " for resource "
            ++ resource.uri))
  match tsE with
  | .error e => .error e
  | .ok ts =>
    let sizeE := match resource.size with
      | none => []
      | some sz => [XmlElem.mk "rs:size" [] (some (toString sz)) [] none]
    let md5E := match resource.md5 with
      | none => []
      | some d => [XmlElem.mk "rs:fixity" [("type", "md5")] (some d) [] none]
    .ok (XmlElem.mk element_name [] none ([locE] ++ ts ++ sizeE ++ md5E)
      (if s.pretty_xml then some "\n" else none))

/-- Python dict assignment `atts[a] = v` on an attribute dictionary modelled
as an association list: replace the value of an existing key in place, else
append the new binding. -/
def assocSet (atts : List (String × String)) (a v : String) :
    List (String × String) :=
  match atts with
  | [] => [(a, v)]
  | (k, w) :: rest =>
    if k = a then (k, v) :: rest else (k, w) :: assocSet rest a v

/-- The attribute dictionary built for one capability by the loop body of
`add_capabilities_to_etree` (sitemap.py lines 523-531): start from
`href = capability uri`, then for each attribute rename the reserved key
`attributes` to `rel` and space-join list-valued attributes. -/
def capAttrs (c : String) (attrs : List (String × AttrVal)) :
    List (String × String) :=
  attrs.foldl (fun atts p =>
    let a := if p.1 = "attributes" then "rel" else p.1
    let v := match p.2 with
      | .str v => v
      | .multi vs => String.intercalate " " vs
    assocSet atts a v) [("href", c)]

/-- The sorted capability keys iterated by `add_capabilities_to_etree`
(`sorted(capabilities.keys())`), modelling Python `sorted` by insertion
sort under the lexicographic string order. -/
def sortedKeys (capabilities : Caps) : List String :=
  List.insertionSort (fun a b => a ≤ b) (capabilities.map Prod.fst)

/-- `add_capabilities_to_etree` (sitemap.py lines 514-535): one `xhtml:link`
element per capability, in sorted capability-URI order.  The function mutates
the supplied etree by appending; it is modelled as returning the list of
appended elements. -/
def add_capabilities_to_etree (s : Sitemap) (capabilities : Caps) :
    List XmlElem :=
  (sortedKeys capabilities).map (fun c =>
    XmlElem.mk "xhtml:link" (capAttrs c ((capabilities.lookup c).getD [])) none []
      (if s.pretty_xml then some "\n" else none))

/-- The first argument of `resources_as_xml`: the call sites pass either a
plain Python list (the chunks built by `get_resources_chunk`) or a resource
container; only a container has a `capabilities` attribute. -/
inductive ResArg where
  | plainList (rs : List Resource)
  | cont (c : Container)

/-- Resource iteration over either form (`for r in resources`). -/
def ResArg.toList : ResArg → List Resource
  | .plainList rs => rs
  | .cont c => c.toList

/-- `resources.capabilities`: a plain list has no such attribute, which in
Python raises `AttributeError`, modelled as `none`. -/
def ResArg.capabilities : ResArg → Option Caps
  | .plainList _ => none
  | .cont c => some c.capabilities

/-- The resource loop of `resources_as_xml` (sitemap.py lines 351-357):
serialize resources in order, decrementing the optional `num_resources`
counter and stopping once it reaches zero. -/
def addResources (s : Sitemap) (rs : List Resource) (num : Option Int) :
    Except PyErr (List XmlElem) :=
  match rs with
  | [] => .ok []
  | r :: rest =>
    match resource_etree_element s r "url" with
    | .error e => .error e
    | .ok e =>
      match num with
      | none =>
        match addResources s rest none with
        | .error er => .error er
        | .ok es => .ok (e :: es)
      | some n =>
        if n - 1 = 0 then .ok [e]
        else
          match addResources s rest (some (n - 1)) with
          | .error er => .error er
          | .ok es => .ok (e :: es)

/-- `resources_as_xml` (sitemap.py lines 332-365): build the `urlset`
document for a set of resources.  Evaluating `resources.capabilities` on a
plain list raises `AttributeError` (short-circuited away when
`include_capabilities` is false); capability links are prepended before the
resource elements.  The serialization to bytes is the external `xml.etree`
library, so the function returns the document tree. -/
def resources_as_xml (s : Sitemap) (resources : ResArg)
    (num_resources : Option Int) (include_capabilities : Bool) :
    Except PyErr XmlElem :=
  let incE : Except PyErr Bool :=
    if include_capabilities then
      match resources.capabilities with
      | none => .error (.attributeError "capabilities")
      | some caps => .ok (caps.length > 0)
    else .ok false
  match incE with
  | .error e => .error e
  | .ok inc =>
    let namespaces := [("xmlns", SITEMAP_NS), ("xmlns:rs", RS_NS)]
      ++ (if inc then [("xmlns:xhtml", XHTML_NS)] else [])
    let capElems :=
      if inc then add_capabilities_to_etree s ((resources.capabilities).getD [])
      else []
    match addResources s resources.toList num_resources with
    | .error e => .error e
    | .ok es =>
      .ok (XmlElem.mk "urlset" namespaces
        (if s.pretty_xml then some "\n" else none) (capElems ++ es) none)

/-- `sitemapindex_as_xml` (sitemap.py lines 439-476): build the
`sitemapindex` document listing the written sitemap files with their
modification timestamps.  Each file is translated to a URI via
`mapper.dst_to_src`, a `MapperError` falling back to `file://` + path; a
missing mapper object surfaces as `AttributeError`.  The sitemap entry is
serialized exactly like a resource, with element name `sitemap`. -/
def sitemapindex_as_xml (s : Sitemap) (sitemaps : List (String × Nat))
    (inventory : Container) (include_capabilities : Bool) :
    Except PyErr XmlElem :=
  let inc := include_capabilities && (inventory.capabilities.length > 0)
  let namespaces := [("xmlns", SITEMAP_NS)]
    ++ (if inc then [("xmlns:xhtml", XHTML_NS)] else [])
  let capElems := if inc then add_capabilities_to_etree s inventory.capabilities
    else []
  let entriesE : Except PyErr (List XmlElem) :=
    sitemaps.foldr (fun p acc =>
      match acc with
      | .error e => .error e
      | .ok es =>
        match s.mapper with
        | none => .error (.attributeError "dst_to_src")
        | some m =>
          let uri := (m.dst_to_src p.1).getD ("file://" ++ p.1)
          let smr : Resource := { uri := uri, lastmod := some (toString p.2) }
          match resource_etree_element s smr "sitemap" with
          | .error e => .error e
          | .ok e => .ok (e :: es)) (.ok [])
  match entriesE with
  | .error e => .error e
  | .ok entries =>
    .ok (XmlElem.mk "sitemapindex" namespaces
      (if s.pretty_xml then some "\n" else none) (capElems ++ entries) none)

/-- The pulling loop of `get_resources_chunk` (sitemap.py lines 140-143):
append items from the iterator to the chunk, stopping as soon as the chunk
exceeds `max` entries; returns the chunk and the remaining iterator. -/
def chunkFor (max : Nat) (chunk : List Resource) (it : List Resource) :
    List Resource × List Resource :=
  match it with
  | [] => (chunk, [])
  | r :: rest =>
    let chunk2 := chunk ++ [r]
    if chunk2.length > max then (chunk2, rest) else chunkFor max chunk2 rest

/-- `get_resources_chunk` (sitemap.py lines 125-146): next chunk of at most
`max` resources, the overflow item (popped when the loop pulled `max + 1`),
and the remaining iterator (the Python iterator is stateful; the model
passes the remainder explicitly). -/
def get_resources_chunk (max : Nat) (resource_iter : List Resource)
    (first : Option Resource) :
    List Resource × Option Resource × List Resource :=
  let p := chunkFor max first.toList resource_iter
  if p.1.length > max then (p.1.dropLast, p.1.getLast?, p.2)
  else (p.1, none, p.2)

theorem chunkFor_eq (max : Nat) :
    ∀ (it chunk : List Resource), chunk.length ≤ max →
      chunkFor max chunk it =
        ((chunk ++ it).take (max + 1), (chunk ++ it).drop (max + 1)) := by
  intro it
  induction it with
  | nil =>
    intro chunk h
    simp [chunkFor, List.take_of_length_le (by omega : chunk.length ≤ max + 1),
      List.drop_eq_nil_of_le (by omega : chunk.length ≤ max + 1)]
  | cons r rest ih =>
    intro chunk h
    simp only [chunkFor]
    by_cases hlen : (chunk ++ [r]).length > max
    · have hcl : chunk.length = max := by
        simp at hlen; omega
      simp only [hlen, if_pos]
      have h1 : (chunk ++ r :: rest).take (max + 1) = chunk ++ [r] := by
        have : chunk ++ r :: rest = (chunk ++ [r]) ++ rest := by simp
        rw [this, List.take_append_of_le_length (by simp [hcl]),
          List.take_of_length_le (by simp [hcl])]
      have h2 : (chunk ++ r :: rest).drop (max + 1) = rest := by
        have : chunk ++ r :: rest = (chunk ++ [r]) ++ rest := by simp
        rw [this, List.drop_append_of_le_length (by simp [hcl])]
        simp [hcl]
      simp [h1, h2]
    · simp only [gt_iff_lt, not_lt] at hlen
      simp only [if_neg (by omega : ¬ (chunk ++ [r]).length > max)]
      rw [ih (chunk ++ [r]) (by simpa using hlen)]
      simp

theorem chunkFor_conserve (max : Nat) :
    ∀ (it chunk : List Resource),
      (chunkFor max chunk it).1.length + (chunkFor max chunk it).2.length =
        chunk.length + it.length := by
  intro it
  induction it with
  | nil => intro chunk; simp [chunkFor]
  | cons r rest ih =>
    intro chunk
    simp only [chunkFor]
    by_cases hlen : (chunk ++ [r]).length > max
    · rw [if_pos hlen]
      simp
      omega
    · rw [if_neg hlen]
      have := ih (chunk ++ [r])
      simp at this ⊢
      omega

theorem grc_conserve (max : Nat) (it : List Resource) (first : Option Resource) :
    (get_resources_chunk max it first).1.length
      + (get_resources_chunk max it first).2.1.toList.length
      + (get_resources_chunk max it first).2.2.length
      = first.toList.length + it.length := by
  have h := chunkFor_conserve max it first.toList
  simp only [get_resources_chunk]
  by_cases hp : (chunkFor max first.toList it).1.length > max
  · have hne : (chunkFor max first.toList it).1 ≠ [] := by
      intro hnil; rw [hnil] at hp; simp at hp
    simp only [hp, if_pos]
    have h1 : (chunkFor max first.toList it).1.dropLast.length =
        (chunkFor max first.toList it).1.length - 1 := by
      simp [List.length_dropLast]
    have h2 : (chunkFor max first.toList it).1.getLast?.toList.length = 1 := by
      rw [List.getLast?_eq_getLast _ hne]
      simp
    simp only [h1, h2]
    have : 1 ≤ (chunkFor max first.toList it).1.length := by omega
    omega
  · simp only [if_neg hp]
    simpa using h

/-- The part-writing loop of `Sitemap.write` (sitemap.py lines 98-109): while
the chunk is non-empty, open and write one sitemap part named
`stem + "%05d" % len(sitemaps) + suffix`, record its modification time in the
`sitemaps` dictionary, and pull the next chunk.  Returns the trace of file
operations, the outcome, and the accumulated `sitemaps` dictionary. -/
def writeParts (s : Sitemap) (w : World) (stem suf : String)
    (chunk : List Resource) (next : Option Resource) (it : List Resource)
    (sitemaps : List (String × Nat)) :
    List FOp × Except PyErr Unit × List (String × Nat) :=
  if hch : chunk.length = 0 then ([], .ok (), sitemaps)
  else
    let file := stem ++ fmt5 sitemaps.length ++ suf
    match resources_as_xml s (.plainList chunk) none false with
    | .error e => ([.openW file], .error e, sitemaps)
    | .ok x =>
      let sitemaps2 := sitemaps ++ [(file, w.mtime file)]
      let t := get_resources_chunk s.max_sitemap_entries it next
      let rec2 := writeParts s w stem suf t.1 t.2.1 t.2.2 sitemaps2
      ([.openW file, .writeDoc file x] ++ rec2.1, rec2.2.1, rec2.2.2)
termination_by (it.length + next.toList.length, chunk.length)
decreasing_by
  have hcons := grc_conserve s.max_sitemap_entries it next
  by_cases hc : (get_resources_chunk s.max_sitemap_entries it next).1.length = 0
  · apply Prod.Lex.right'
    · omega
    · omega
  · apply Prod.Lex.left
    omega

/-- `Sitemap.write` (sitemap.py lines 68-123).  Pull the first chunk; if an
overflow item exists, either fail (multifile disabled — before any file
operation) or write the numbered parts (capabilities suppressed) followed by
the sitemapindex at `basename`; otherwise open `basename` and write the single
document (which evaluates `chunk.capabilities` on a plain list).  Returns the
trace of file operations together with the raised exception, if any. -/
def write (s : Sitemap) (w : World) (resources : Container)
    (basename : String) : List FOp × Option PyErr :=
  let resources_iter := resources.toList
  let t := get_resources_chunk s.max_sitemap_entries resources_iter none
  match t.2.1 with
  | some nxt =>
    if !s.allow_multifile then
      ([], some (.exception
        "Too many entries for a single sitemap but multifile disabled"))
    else
      let stem := if basename.takeRight 4 = ".xml" then basename.dropRight 4
        else basename
      let parts := writeParts s w stem ".xml" t.1 (some nxt) t.2.2 []
      match parts.2.1 with
      | .error e => (parts.1, some e)
      | .ok _ =>
        match sitemapindex_as_xml s parts.2.2 resources true with
        | .error e => (parts.1 ++ [.openW basename], some e)
        | .ok idx =>
          (parts.1 ++ [.openW basename, .writeDoc basename idx], none)
  | none =>
    match resources_as_xml s (.plainList t.1) none true with
    | .error e => ([.openW basename], some e)
    | .ok x => ([.openW basename, .writeDoc basename x], none)

/-- Digit-run accumulator for `pyInt?`. -/
def pyDigitsAux : List Char → Nat → Option Nat
  | [], acc => some acc
  | c :: cs, acc =>
    if c.isDigit then pyDigitsAux cs (acc * 10 + (c.toNat - 48)) else none

/-- Python `int(str)` as used for `<rs:size>` values: an optional sign
followed by at least one decimal digit (surrounding whitespace is not
modelled); anything else raises, modelled as `none`.  Stated structurally
over the character list so concrete values evaluate in the kernel. -/
def pyInt? (s : String) : Option Int :=
  match s.data with
  | [] => none
  | c :: cs =>
    if c = '-' then
      match cs with
      | [] => none
      | _ => (pyDigitsAux cs 0).map (fun n => -(n : Int))
    else if c = '+' then
      match cs with
      | [] => none
      | _ => (pyDigitsAux cs 0).map (fun n => (n : Int))
    else (pyDigitsAux (c :: cs) 0).map (fun n => (n : Int))

/-- `resource_from_etree` (sitemap.py lines 271-328): construct a resource
from a `url`-shaped element.  A missing `loc` child is fatal; `lastmod` text
and its `rs:type` attribute set the timestamp and change kind (an unknown
type only warns); an `expires` child overrides the timestamp and marks the
record deleted, warning when both were present; a malformed `rs:size` value is
fatal (Python `int()` modelled by `String.toInt?`); only the `md5` fixity type
is honoured, other types warn and drop the digest. -/
def resource_from_etree (etree : XmlElem) :
    Except PyErr (Resource × List Warning) :=
  match findtext etree (qn SITEMAP_NS "loc") with
  | none => .error (.sitemapError
      "Missing <loc> element while parsing <url> in sitemap")
  | some loc =>
    let resource : Resource := { uri := loc }
    let lastmodE := findChild etree (qn SITEMAP_NS "lastmod")
    let st1 : Resource × List Warning :=
      match lastmodE with
      | none => (resource, [])
      | some le =>
        let resource := match le.text with
          | none => resource
          | some lm => { resource with lastmod := some lm }
        match attrGet le (qn RS_NS "type") with
        | none => (resource, [])
        | some ty =>
          if ty = "created" then
            ({ resource with changetype := some "CREATED" }, [])
          else if ty = "updated" then
            ({ resource with changetype := some "UPDATED" }, [])
          else (resource, [.badRsType loc])
    let st2 : Resource × List Warning :=
      match findtext etree (qn SITEMAP_NS "expires") with
      | none => st1
      | some ex =>
        let resource :=
          { st1.1 with lastmod := some ex, changetype := some "DELETED" }
        match lastmodE with
        | none => (resource, st1.2)
        | some _ => (resource, st1.2 ++ [.lastmodAndExpires loc])
    let st3 : Except PyErr (Resource × List Warning) :=
      match findtext etree (qn RS_NS "size") with
      | none => .ok st2
      | some sz =>
        match pyInt? sz with
        | some n => .ok ({ st2.1 with size := some n }, st2.2)
        | none => .error (.exception ("Invalid <rs:size> for " ++ loc))
    match st3 with
    | .error e => .error e
    | .ok st =>
      .ok (match findChild etree (qn RS_NS "fixity") with
        | none => st
        | some fe =>
          match attrGet fe "type" with
          | none => st
          | some ty =>
            if ty = "md5" then ({ st.1 with md5 := fe.text }, st.2)
            else if ty = "sha-1" ∨ ty = "sha-256" then
              (st.1, st.2 ++ [.unsupportedFixity ty loc])
            else (st.1, st.2 ++ [.unknownFixity ty loc]))

/-- The `url`-element loop of `inventory_parse_xml` (sitemap.py lines
390-397): parse each element, add it to the inventory, downgrade the dedup
condition to a logged warning (keeping the existing record), and count every
parsed record in `resources_created`. -/
def parseUrlElements (url_elements : List XmlElem) (inventory : Container)
    (count : Nat) (warns : List Warning) :
    Except PyErr (Container × Nat × List Warning) :=
  match url_elements with
  | [] => .ok (inventory, count, warns)
  | u :: rest =>
    match resource_from_etree u with
    | .error e => .error e
    | .ok rw =>
      let next : Container × List Warning :=
        match inventory.add rw.1 with
        | .ok inv2 => (inv2, warns ++ rw.2)
        | .error _ =>
          (inventory, warns ++ rw.2 ++
            [.dupe rw.1.uri rw.1.lastmod
              ((inventory.resLookup rw.1.uri).bind (fun r => r.lastmod))])
      parseUrlElements rest next.1 (count + 1) next.2

/-- `inventory_parse_xml` (sitemap.py lines 367-402) on an already-parsed
tree: a `urlset` root is parsed record by record into the given container
(`resources_created` returned alongside); a `sitemapindex` root raises
`SitemapIndexError` carrying the tree; anything else raises `ValueError`. -/
def inventory_parse_xml (etree : XmlElem) (inventory : Container) :
    Except PyErr (Container × Nat × List Warning) :=
  if etree.tag = qn SITEMAP_NS "urlset" then
    parseUrlElements
      (etree.children.filter (fun c => c.tag = qn SITEMAP_NS "url"))
      inventory 0 []
  else if etree.tag = qn SITEMAP_NS "sitemapindex" then
    .error (.sitemapIndexError "Got sitemapindex when expecting sitemap" etree)
  else .error (.valueError "XML is not sitemap or sitemapindex")

/-- The `url`-element loop of `changeset_parse_xml` (sitemap.py lines
427-430): like the inventory loop but `changeset.add` is called without the
dedup guard. -/
def parseUrlElementsCS (url_elements : List XmlElem) (changeset : Container)
    (count : Nat) (warns : List Warning) :
    Except PyErr (Container × Nat × List Warning) :=
  match url_elements with
  | [] => .ok (changeset, count, warns)
  | u :: rest =>
    match resource_from_etree u with
    | .error e => .error e
    | .ok rw =>
      match changeset.add rw.1 with
      | .error e => .error e
      | .ok cs2 => parseUrlElementsCS rest cs2 (count + 1) (warns ++ rw.2)

/-- `changeset_parse_xml` (sitemap.py lines 404-435): as
`inventory_parse_xml` but accumulating into a ChangeSet via plain `add`. -/
def changeset_parse_xml (etree : XmlElem) (changeset : Container) :
    Except PyErr (Container × Nat × List Warning) :=
  if etree.tag = qn SITEMAP_NS "urlset" then
    parseUrlElementsCS
      (etree.children.filter (fun c => c.tag = qn SITEMAP_NS "url"))
      changeset 0 []
  else if etree.tag = qn SITEMAP_NS "sitemapindex" then
    .error (.sitemapIndexError "Got sitemapindex when expecting sitemap" etree)
  else .error (.valueError "XML is not sitemap or sitemapindex")

/-- The `sitemap`-element loop of `sitemapindex_parse_xml` (sitemap.py lines
501-504): each index entry is parsed exactly like a resource and added to the
SitemapIndex (an Inventory), counting in `sitemaps_created`; a dedup
condition here is not caught. -/
def parseSitemapElements (elements : List XmlElem) (sitemapindex : Container)
    (count : Nat) (warns : List Warning) :
    Except PyErr (Container × Nat × List Warning) :=
  match elements with
  | [] => .ok (sitemapindex, count, warns)
  | u :: rest =>
    match resource_from_etree u with
    | .error e => .error e
    | .ok rw =>
      match sitemapindex.add rw.1 with
      | .error e => .error e
      | .ok si2 => parseSitemapElements rest si2 (count + 1) (warns ++ rw.2)

/-- `sitemapindex_parse_xml` (sitemap.py lines 478-509): a `sitemapindex`
root is parsed into a fresh SitemapIndex container; a `urlset` root raises
`SitemapIndexError` carrying the tree; anything else raises `ValueError`. -/
def sitemapindex_parse_xml (etree : XmlElem) :
    Except PyErr (Container × Nat × List Warning) :=
  if etree.tag = qn SITEMAP_NS "sitemapindex" then
    parseSitemapElements
      (etree.children.filter (fun c => c.tag = qn SITEMAP_NS "sitemap"))
      (.inventory [] []) 0 []
  else if etree.tag = qn SITEMAP_NS "urlset" then
    .error (.sitemapIndexError "Got sitemap when expecting sitemapindex" etree)
  else .error (.valueError "XML is not sitemap or sitemapindex")

/-- The Content-Length bookkeeping of `Sitemap.read` (sitemap.py lines
164-170 and 201-207): when the transport exposes a length, record it in
`content_length` and add it to the running `bytes_read`; otherwise both are
left untouched. -/
def recordLen (st : Stats) (len : Option Nat) : Stats :=
  match len with
  | none => st
  | some l =>
    { st with content_length := some l, bytes_read := st.bytes_read + l }

/-- `resources.keys()` of an Inventory-backed container. -/
def Container.keys : Container → List String
  | .inventory rs _ => rs.map Prod.fst
  | .changeset _ _ => []

/-- The part-reading loop of `Sitemap.read` (sitemap.py lines 187-210): for
each part location in sorted order, translate it through the mapper when the
index was a local file and the part is not (a missing mapper object being an
`AttributeError`, a failed mapping a `MapperError`), fetch it, account its
Content-Length, log it (which formats `self.content_length` with `%d` and so
fails on `None`), parse it into the shared container and bump
`sitemaps_created`. -/
def readParts (s : Sitemap) (w : World) (indexUri : String)
    (index_is_file : Bool) (keys : List String) (resources : Container)
    (st : Stats) (warns : List Warning) :
    Except PyErr (Container × Stats × List Warning) :=
  match keys with
  | [] => .ok (resources, st, warns)
  | sitemap_uri :: rest =>
    let suE : Except PyErr String :=
      if index_is_file && !(is_file_uri sitemap_uri) then
        match s.mapper with
        | none => .error (.attributeError "src_to_dst")
        | some m =>
          match m.src_to_dst sitemap_uri with
          | none => .error .mapperError
          | some p => .ok p
      else .ok sitemap_uri
    match suE with
    | .error e => .error e
    | .ok su =>
      match w.fetch su with
      | .error msg => .error (.exception ("Failed to load sitemap from " ++ su
          ++ " listed in sitemap index " ++ indexUri ++ " (" ++ msg ++ ")"))
      | .ok fr =>
        let st2 := recordLen st fr.1
        match st2.content_length with
        | none => .error (.typeError "int format argument is None")
        | some _ =>
          match inventory_parse_xml fr.2 resources with
          | .error e => .error e
          | .ok out =>
            readParts s w indexUri index_is_file rest out.1
              { st2 with
                resources_created := some out.2.1
                sitemaps_created := st2.sitemaps_created.map (fun n => n + 1) }
              (warns ++ out.2.2)

/-- `Sitemap.read` (sitemap.py lines 148-213).  Fetch and account the
document, zero `sitemaps_created`, then dispatch on the root tag: `urlset`
parses into the supplied container (a fresh Inventory when none was given);
`sitemapindex` requires `allow_multifile`, parses the index, and reads every
part in sorted order via `readParts`; any other root hits the `raise
ValueError` line, which formats the message with the never-assigned local
`sitemap_uri` and so raises `UnboundLocalError`. -/
def Sitemap.read (s : Sitemap) (w : World) (uri : String)
    (resources0 : Option Container) (st : Stats) :
    Except PyErr (Container × Stats × List Warning) :=
  let resources := resources0.getD (.inventory [] [])
  match w.fetch uri with
  | .error msg => .error (.exception
      ("Failed to load sitemap/sitemapindex from " ++ uri ++ " (" ++ msg ++ ")"))
  | .ok fr =>
    let st1 := recordLen st fr.1
    let etree := fr.2
    let st2 := { st1 with sitemaps_created := some 0 }
    if etree.tag = qn SITEMAP_NS "urlset" then
      match inventory_parse_xml etree resources with
      | .error e => .error e
      | .ok out =>
        .ok (out.1, { st2 with
          resources_created := some out.2.1
          sitemaps_created := some (0 + 1) }, out.2.2)
    else if etree.tag = qn SITEMAP_NS "sitemapindex" then
      if !s.allow_multifile then
        .error (.exception ("Got sitemapindex from " ++ uri
          ++ " but support for sitemapindex disabled"))
      else
        match sitemapindex_parse_xml etree with
        | .error e => .error e
        | .ok out =>
          let st3 := { st2 with sitemaps_created := some out.2.1 }
          let keysSorted :=
            List.insertionSort (fun a b => a ≤ b) out.1.keys
          readParts s w uri (is_file_uri uri) keysSorted resources st3 out.2.2
    else .error (.unboundLocalError "sitemap_uri")

/-- A `Sitemap()` instance with the constructor defaults. -/
def defaultSitemap : Sitemap := {}

/-- A world with no reachable documents, used for concrete write runs. -/
def emptyWorld : World :=
  { fetch := fun _ => .error "unreachable", mtime := fun _ => 0 }

theorem grc_take (max : Nat) (it : List Resource) (first : Option Resource)
    (h : first.toList.length ≤ max) :
    get_resources_chunk max it first
      = ((first.toList ++ it).take max, (first.toList ++ it)[max]?,
         (first.toList ++ it).drop (max + 1)) := by
  have hc := chunkFor_eq max it first.toList h
  have hlen : (first.toList ++ it).length = first.toList.length + it.length :=
    List.length_append _ _
  simp only [get_resources_chunk, hc]
  by_cases hl : (first.toList ++ it).length > max
  · have h1 : ((first.toList ++ it).take (max + 1)).length = max + 1 := by
      rw [List.length_take]; omega
    rw [if_pos (by rw [h1]; omega)]
    have hsucc : (first.toList ++ it).take (max + 1)
        = (first.toList ++ it).take max
          ++ ((first.toList ++ it)[max]?).toList := List.take_succ
    obtain ⟨x, hx⟩ : ∃ x, (first.toList ++ it)[max]? = some x := by
      have hmlt : max < (first.toList ++ it).length := hl
      exact ⟨_, List.getElem?_eq_getElem hmlt⟩
    rw [hsucc, hx]
    simp
  · simp only [gt_iff_lt, not_lt] at hl
    have h1 : (first.toList ++ it).take (max + 1) = first.toList ++ it :=
      List.take_of_length_le (by omega)
    rw [h1, if_neg (by omega : ¬ (first.toList ++ it).length > max)]
    have h2 : (first.toList ++ it).take max = first.toList ++ it :=
      List.take_of_length_le hl
    have h3 : (first.toList ++ it)[max]? = none := by
      rw [List.getElem?_eq_none]; omega
    rw [h2, h3]

theorem grc_all (max : Nat) (it : List Resource) (h : it.length ≤ max) :
    get_resources_chunk max it none = (it, none, []) := by
  rw [grc_take max it none (by simp)]
  simp [List.take_of_length_le h, List.getElem?_eq_none (by omega : it.length ≤ max),
    List.drop_eq_nil_of_le (by omega : it.length ≤ max + 1)]

/-- C1 (code-bug evidence): for every Inventory that fits in a single
document (at most `max_sitemap_entries` resources), `Sitemap.write` opens the
destination file and then raises `AttributeError`, because the single-document
branch passes the plain chunk list to `resources_as_xml` with capability
rendering enabled and a list has no `capabilities` attribute — so the
write/read round trip claimed by the spec never gets past the write. -/
theorem c1_single_document_write_raises (s : Sitemap) (w : World)
    (rs : List (String × Resource)) (caps : Caps) (basename : String)
    (h : rs.length ≤ s.max_sitemap_entries) :
    write s w (.inventory rs caps) basename
      = ([.openW basename], some (.attributeError "capabilities")) := by
  have htl : (Container.inventory rs caps).toList.length = rs.length := by
    simp [Container.toList]
  have hg := grc_all s.max_sitemap_entries (Container.inventory rs caps).toList
    (by rw [htl]; exact h)
  simp only [write, hg, resources_as_xml, ResArg.capabilities]
  simp

/-- C1 witness: a concrete one-resource inventory on a default Sitemap. -/
theorem c1_witness :
    (1 : Nat) ≤ defaultSitemap.max_sitemap_entries ∧
    write defaultSitemap emptyWorld
        (.inventory [("http://example.org/a", { uri := "http://example.org/a" })] [])
        "/tmp/sitemap.xml"
      = ([.openW "/tmp/sitemap.xml"], some (.attributeError "capabilities")) :=
  ⟨by decide,
   c1_single_document_write_raises defaultSitemap emptyWorld
     [("http://example.org/a", { uri := "http://example.org/a" })] []
     "/tmp/sitemap.xml" (by decide)⟩

/-- C4: parsing a `sitemapindex` root through `inventory_parse_xml` or
`changeset_parse_xml` raises `SitemapIndexError` (not the generic
`ValueError`) carrying the already-parsed tree, and parsing a `urlset` root
through `sitemapindex_parse_xml` raises the same condition in the opposite
direction, also carrying the tree. -/
theorem c4_index_document_mismatch (t u : XmlElem) (inv cs : Container)
    (hi : t.tag = qn SITEMAP_NS "sitemapindex")
    (hu : u.tag = qn SITEMAP_NS "urlset") :
    inventory_parse_xml t inv
        = .error (.sitemapIndexError "Got sitemapindex when expecting sitemap" t)
    ∧ changeset_parse_xml t cs
        = .error (.sitemapIndexError "Got sitemapindex when expecting sitemap" t)
    ∧ sitemapindex_parse_xml u
        = .error (.sitemapIndexError "Got sitemap when expecting sitemapindex" u) := by
  have hne : qn SITEMAP_NS "sitemapindex" ≠ qn SITEMAP_NS "urlset" := by decide
  have hne2 : qn SITEMAP_NS "urlset" ≠ qn SITEMAP_NS "sitemapindex" := by decide
  refine ⟨?_, ?_, ?_⟩
  · simp [inventory_parse_xml, hi, hne]
  · simp [changeset_parse_xml, hi, hne]
  · simp [sitemapindex_parse_xml, hu, hne2]

/-- A concrete parsed tree with a `sitemapindex` root. -/
def idxTree : XmlElem := XmlElem.mk (qn SITEMAP_NS "sitemapindex") [] none [] none

/-- A concrete parsed tree with a `urlset` root. -/
def urlsetTree : XmlElem := XmlElem.mk (qn SITEMAP_NS "urlset") [] none [] none

/-- C4 witness: the mismatch conditions at concrete trees and containers. -/
theorem c4_witness :
    inventory_parse_xml idxTree (.inventory [] [])
        = .error (.sitemapIndexError "Got sitemapindex when expecting sitemap" idxTree)
    ∧ changeset_parse_xml idxTree (.changeset [] [])
        = .error (.sitemapIndexError "Got sitemapindex when expecting sitemap" idxTree)
    ∧ sitemapindex_parse_xml urlsetTree
        = .error (.sitemapIndexError "Got sitemap when expecting sitemapindex" urlsetTree) :=
  c4_index_document_mismatch idxTree urlsetTree (.inventory [] [])
    (.changeset [] []) rfl rfl

/-- C9 (amended): for a container whose iterator yields no items, `write`
takes the single-document branch, so it does create (open for writing) the
file at the destination basename and then fails with the capabilities
`AttributeError` before writing any content; no part documents and no index
are produced. -/
theorem c9_empty_write_creates_file (s : Sitemap) (w : World) (caps : Caps)
    (basename : String) :
    write s w (.inventory [] caps) basename
      = ([.openW basename], some (.attributeError "capabilities")) := by
  have hg := grc_all s.max_sitemap_entries (Container.inventory [] caps).toList
    (by simp [Container.toList])
  simp only [write, hg, resources_as_xml, ResArg.capabilities]
  simp

/-- C9 counterexample: at a concrete empty inventory the claim "no file is
created at or derived from the destination basename" is false — the trace of
file operations is non-empty (the basename itself is opened for writing,
which creates the file). -/
theorem c9_counterexample :
    (write defaultSitemap emptyWorld (Container.inventory [] [])
        "/tmp/sitemap.xml").1 = [FOp.openW "/tmp/sitemap.xml"]
    ∧ [FOp.openW "/tmp/sitemap.xml"] ≠ ([] : List FOp) :=
  ⟨rfl, by simp⟩

/-- C3 (code-bug evidence): when the fetched document's root is neither
`urlset` nor `sitemapindex`, `Sitemap.read` does not raise the intended
parse-format `ValueError` — the `raise` statement formats its message with
the local variable `sitemap_uri`, which is never assigned on this path, so
the read fails with `UnboundLocalError` instead. -/
theorem c3_unrecognized_root_raises (s : Sitemap) (w : World) (uri : String)
    (len : Option Nat) (tree : XmlElem) (resources0 : Option Container)
    (st : Stats)
    (hf : w.fetch uri = .ok (len, tree))
    (h1 : tree.tag ≠ qn SITEMAP_NS "urlset")
    (h2 : tree.tag ≠ qn SITEMAP_NS "sitemapindex") :
    Sitemap.read s w uri resources0 st
      = .error (.unboundLocalError "sitemap_uri") := by
  simp [Sitemap.read, hf, h1, h2]

/-- A world serving a parsed document whose root element is `foo`. -/
def badRootWorld : World :=
  { fetch := fun _ => .ok (some 10, XmlElem.mk "foo" [] none [] none),
    mtime := fun _ => 0 }

/-- C3 witness: reading a document with root `foo` on a default Sitemap. -/
theorem c3_witness :
    Sitemap.read defaultSitemap badRootWorld "http://example.org/sitemap.xml"
        none initStats
      = .error (.unboundLocalError "sitemap_uri") :=
  c3_unrecognized_root_raises defaultSitemap badRootWorld
    "http://example.org/sitemap.xml" (some 10)
    (XmlElem.mk "foo" [] none [] none) none initStats rfl
    (by decide) (by decide)

theorem find?_append_or (l1 l2 : List XmlElem) (p : XmlElem → Bool) :
    (l1 ++ l2).find? p = (l1.find? p).or (l2.find? p) := List.find?_append

/-- The optional `rs:size` child produced for a resource. -/
def sizeElems (r : Resource) : List XmlElem :=
  match r.size with
  | none => []
  | some sz => [XmlElem.mk "rs:size" [] (some (toString sz)) [] none]

/-- The optional `rs:fixity` child produced for a resource. -/
def md5Elems (r : Resource) : List XmlElem :=
  match r.md5 with
  | none => []
  | some d => [XmlElem.mk "rs:fixity" [("type", "md5")] (some d) [] none]

theorem sizeElems_tag_ne (r : Resource) (t : String) (h : t ≠ "rs:size") :
    ∀ x ∈ sizeElems r, ¬ x.tag = t := by
  intro x hx
  cases hs : r.size <;> simp [sizeElems, hs] at hx
  subst hx
  simp [XmlElem.tag]
  exact fun hh => h hh.symm

theorem md5Elems_tag_ne (r : Resource) (t : String) (h : t ≠ "rs:fixity") :
    ∀ x ∈ md5Elems r, ¬ x.tag = t := by
  intro x hx
  cases hm : r.md5 <;> simp [md5Elems, hm] at hx
  subst hx
  simp [XmlElem.tag]
  exact fun hh => h hh.symm

/-- C5: serialization of a timestamped resource by `resource_etree_element`:
kind deleted yields an `expires` element with no attributes and no `lastmod`
element; kinds created/updated yield a `lastmod` element with the matching
`rs:type` attribute and no `expires` element; an absent kind yields a bare
`lastmod` element; any other kind is a fatal `Exception`. -/
theorem c5_change_kind_encoding (s : Sitemap) (r : Resource) (lm : String)
    (name : String) (hlm : r.lastmod = some lm) :
    (r.changetype = some "DELETED" →
      ∃ e, resource_etree_element s r name = .ok e
        ∧ findChild e "expires" = some (XmlElem.mk "expires" [] (some lm) [] none)
        ∧ findChild e "lastmod" = none)
  ∧ (r.changetype = some "CREATED" →
      ∃ e, resource_etree_element s r name = .ok e
        ∧ findChild e "lastmod"
            = some (XmlElem.mk "lastmod" [("rs:type", "created")] (some lm) [] none)
        ∧ findChild e "expires" = none)
  ∧ (r.changetype = some "UPDATED" →
      ∃ e, resource_etree_element s r name = .ok e
        ∧ findChild e "lastmod"
            = some (XmlElem.mk "lastmod" [("rs:type", "updated")] (some lm) [] none)
        ∧ findChild e "expires" = none)
  ∧ (r.changetype = none →
      ∃ e, resource_etree_element s r name = .ok e
        ∧ findChild e "lastmod" = some (XmlElem.mk "lastmod" [] (some lm) [] none)
        ∧ findChild e "expires" = none)
  ∧ (∀ ct, r.changetype = some ct → ct ≠ "CREATED" → ct ≠ "UPDATED" →
      ct ≠ "DELETED" →
      resource_etree_element s r name
        = .error (.exception ("Unknown change type " ++ ct ++ " for resource "
            ++ r.uri))) := by
  refine ⟨?_, ?_, ?_, ?_, ?_⟩
  · intro hct
    refine ⟨XmlElem.mk name [] none
        ([XmlElem.mk "loc" [] (some r.uri) [] none,
          XmlElem.mk "expires" [] (some lm) [] none]
          ++ sizeElems r ++ md5Elems r)
        (if s.pretty_xml then some "\n" else none), ?_, ?_, ?_⟩
    · cases hs : r.size <;> cases hm : r.md5 <;>
        simp [resource_etree_element, hlm, hct, sizeElems, md5Elems, hs, hm]
    · simp [findChild, XmlElem.children, find?_append_or, List.find?,
        XmlElem.tag]
    · have h1 := sizeElems_tag_ne r "lastmod" (by decide)
      have h2 := md5Elems_tag_ne r "lastmod" (by decide)
      simp [findChild, XmlElem.children, find?_append_or, List.find?,
        XmlElem.tag]
      exact ⟨h1, h2⟩
  · intro hct
    refine ⟨XmlElem.mk name [] none
        ([XmlElem.mk "loc" [] (some r.uri) [] none,
          XmlElem.mk "lastmod" [("rs:type", "created")] (some lm) [] none]
          ++ sizeElems r ++ md5Elems r)
        (if s.pretty_xml then some "\n" else none), ?_, ?_, ?_⟩
    · cases hs : r.size <;> cases hm : r.md5 <;>
        simp [resource_etree_element, hlm, hct, sizeElems, md5Elems, hs, hm]
    · simp [findChild, XmlElem.children, find?_append_or, List.find?,
        XmlElem.tag]
    · have h1 := sizeElems_tag_ne r "expires" (by decide)
      have h2 := md5Elems_tag_ne r "expires" (by decide)
      simp [findChild, XmlElem.children, find?_append_or, List.find?,
        XmlElem.tag]
      exact ⟨h1, h2⟩
  · intro hct
    refine ⟨XmlElem.mk name [] none
        ([XmlElem.mk "loc" [] (some r.uri) [] none,
          XmlElem.mk "lastmod" [("rs:type", "updated")] (some lm) [] none]
          ++ sizeElems r ++ md5Elems r)
        (if s.pretty_xml then some "\n" else none), ?_, ?_, ?_⟩
    · cases hs : r.size <;> cases hm : r.md5 <;>
        simp [resource_etree_element, hlm, hct, sizeElems, md5Elems, hs, hm]
    · simp [findChild, XmlElem.children, find?_append_or, List.find?,
        XmlElem.tag]
    · have h1 := sizeElems_tag_ne r "expires" (by decide)
      have h2 := md5Elems_tag_ne r "expires" (by decide)
      simp [findChild, XmlElem.children, find?_append_or, List.find?,
        XmlElem.tag]
      exact ⟨h1, h2⟩
  · intro hct
    refine ⟨XmlElem.mk name [] none
        ([XmlElem.mk "loc" [] (some r.uri) [] none,
          XmlElem.mk "lastmod" [] (some lm) [] none]
          ++ sizeElems r ++ md5Elems r)
        (if s.pretty_xml then some "\n" else none), ?_, ?_, ?_⟩
    · cases hs : r.size <;> cases hm : r.md5 <;>
        simp [resource_etree_element, hlm, hct, sizeElems, md5Elems, hs, hm]
    · simp [findChild, XmlElem.children, find?_append_or, List.find?,
        XmlElem.tag]
    · have h1 := sizeElems_tag_ne r "expires" (by decide)
      have h2 := md5Elems_tag_ne r "expires" (by decide)
      simp [findChild, XmlElem.children, find?_append_or, List.find?,
        XmlElem.tag]
      exact ⟨h1, h2⟩
  · intro ct hct hc hu hd
    simp [resource_etree_element, hlm, hct, hc, hu, hd]

/-- A deleted change record with a timestamp. -/
def rDel : Resource := { uri := "u", lastmod := some "t", changetype := some "DELETED" }

/-- A created change record with a timestamp. -/
def rCre : Resource := { uri := "u", lastmod := some "t", changetype := some "CREATED" }

/-- An updated change record with a timestamp. -/
def rUpd : Resource := { uri := "u", lastmod := some "t", changetype := some "UPDATED" }

/-- A plain timestamped resource without a change kind. -/
def rPlain : Resource := { uri := "u", lastmod := some "t" }

/-- A timestamped record with an unrecognized change kind. -/
def rBad : Resource := { uri := "u", lastmod := some "t", changetype := some "BOGUS" }

/-- C5 witness: the five kind cases at concrete resources. -/
theorem c5_witness :
    (∃ e, resource_etree_element defaultSitemap rDel "url" = .ok e
       ∧ findChild e "expires" = some (XmlElem.mk "expires" [] (some "t") [] none)
       ∧ findChild e "lastmod" = none)
  ∧ (∃ e, resource_etree_element defaultSitemap rCre "url" = .ok e
       ∧ findChild e "lastmod"
           = some (XmlElem.mk "lastmod" [("rs:type", "created")] (some "t") [] none)
       ∧ findChild e "expires" = none)
  ∧ (∃ e, resource_etree_element defaultSitemap rUpd "url" = .ok e
       ∧ findChild e "lastmod"
           = some (XmlElem.mk "lastmod" [("rs:type", "updated")] (some "t") [] none)
       ∧ findChild e "expires" = none)
  ∧ (∃ e, resource_etree_element defaultSitemap rPlain "url" = .ok e
       ∧ findChild e "lastmod" = some (XmlElem.mk "lastmod" [] (some "t") [] none)
       ∧ findChild e "expires" = none)
  ∧ resource_etree_element defaultSitemap rBad "url"
      = .error (.exception ("Unknown change type " ++ "BOGUS" ++ " for resource "
          ++ rBad.uri)) :=
  ⟨(c5_change_kind_encoding defaultSitemap rDel "t" "url" rfl).1 rfl,
   (c5_change_kind_encoding defaultSitemap rCre "t" "url" rfl).2.1 rfl,
   (c5_change_kind_encoding defaultSitemap rUpd "t" "url" rfl).2.2.1 rfl,
   (c5_change_kind_encoding defaultSitemap rPlain "t" "url" rfl).2.2.2.1 rfl,
   (c5_change_kind_encoding defaultSitemap rBad "t" "url" rfl).2.2.2.2 "BOGUS"
     rfl (by decide) (by decide) (by decide)⟩

/-- C6: per-record classification in `resource_from_etree`: a missing `loc`
child is a fatal `SitemapError`; a non-integer `rs:size` value is a fatal
per-record `Exception`; an unsupported or unknown fixity type only warns, the
digest is dropped and the record still parses; and a record carrying both
`expires` and `lastmod` prefers the expiry (marked deleted, timestamp from
`expires`) with a non-fatal warning about the conflicting pair. -/
theorem c6_record_error_classification :
    (∀ t : XmlElem, findChild t (qn SITEMAP_NS "loc") = none →
      resource_from_etree t = .error (.sitemapError
        "Missing <loc> element while parsing <url> in sitemap"))
  ∧ (∀ (t : XmlElem) (loc sz : String),
      findtext t (qn SITEMAP_NS "loc") = some loc →
      findtext t (qn RS_NS "size") = some sz → pyInt? sz = none →
      resource_from_etree t
        = .error (.exception ("Invalid <rs:size> for " ++ loc)))
  ∧ (∀ (t : XmlElem) (loc : String) (fe : XmlElem) (ty : String),
      findtext t (qn SITEMAP_NS "loc") = some loc →
      (findtext t (qn RS_NS "size") = none
        ∨ ∃ z n, findtext t (qn RS_NS "size") = some z ∧ pyInt? z = some n) →
      findChild t (qn RS_NS "fixity") = some fe →
      attrGet fe "type" = some ty → ty ≠ "md5" →
      ∃ r ws, resource_from_etree t = .ok (r, ws) ∧ r.md5 = none
        ∧ ws.any (fun wn => match wn with
            | .unsupportedFixity _ _ => true
            | .unknownFixity _ _ => true
            | _ => false) = true)
  ∧ (∀ (t : XmlElem) (loc ex : String) (le : XmlElem),
      findtext t (qn SITEMAP_NS "loc") = some loc →
      (findtext t (qn RS_NS "size") = none
        ∨ ∃ z n, findtext t (qn RS_NS "size") = some z ∧ pyInt? z = some n) →
      findChild t (qn SITEMAP_NS "lastmod") = some le →
      findtext t (qn SITEMAP_NS "expires") = some ex →
      ∃ r ws, resource_from_etree t = .ok (r, ws)
        ∧ r.changetype = some "DELETED" ∧ r.lastmod = some ex
        ∧ Warning.lastmodAndExpires loc ∈ ws) := by
  refine ⟨?_, ?_, ?_, ?_⟩
  · intro t h
    simp [resource_from_etree, findtext, h]
  · intro t loc sz hloc hsz hbad
    simp [resource_from_etree, hloc, hsz, hbad]
  · intro t loc fe ty hloc hsz hfix hty hne
    by_cases hsha : ty = "sha-1" ∨ ty = "sha-256" <;>
    rcases hlm : findChild t (qn SITEMAP_NS "lastmod") with _ | le <;>
    rcases hex : findtext t (qn SITEMAP_NS "expires") with _ | ex <;>
    rcases hsz with hs | ⟨z, n, hs, hn⟩
    all_goals simp only [resource_from_etree, hloc, hfix, hty, hlm, hex, hs]
    all_goals try simp only [hn]
    all_goals try rw [if_neg hne]
    all_goals repeat' split
    all_goals refine ⟨_, _, rfl, ?_, ?_⟩
    all_goals simp [hsha]
  · intro t loc ex le hloc hsz hlm hex
    rcases hsz with hs | ⟨z, n, hs, hn⟩
    all_goals simp only [resource_from_etree, hloc, hlm, hex, hs]
    all_goals try simp only [hn]
    all_goals repeat' split
    all_goals refine ⟨_, _, rfl, ?_, ?_, ?_⟩
    all_goals simp

/-- A `url` element with no `loc` child. -/
def noLocElem : XmlElem := XmlElem.mk (qn SITEMAP_NS "url") [] none [] none

/-- A `url` element with a malformed `rs:size` value. -/
def badSizeElem : XmlElem := XmlElem.mk (qn SITEMAP_NS "url") [] none
  [XmlElem.mk (qn SITEMAP_NS "loc") [] (some "u") [] none,
   XmlElem.mk (qn RS_NS "size") [] (some "big") [] none] none

/-- A `url` element with an unsupported `sha-1` fixity digest. -/
def sha1Elem : XmlElem := XmlElem.mk (qn SITEMAP_NS "url") [] none
  [XmlElem.mk (qn SITEMAP_NS "loc") [] (some "u") [] none,
   XmlElem.mk (qn RS_NS "fixity") [("type", "sha-1")] (some "d") [] none] none

/-- A `url` element carrying both `lastmod` and `expires`. -/
def bothTsElem : XmlElem := XmlElem.mk (qn SITEMAP_NS "url") [] none
  [XmlElem.mk (qn SITEMAP_NS "loc") [] (some "u") [] none,
   XmlElem.mk (qn SITEMAP_NS "lastmod") [] (some "100") [] none,
   XmlElem.mk (qn SITEMAP_NS "expires") [] (some "200") [] none] none

/-- C6 witness: the four per-record conditions at concrete elements. -/
theorem c6_witness :
    resource_from_etree noLocElem
      = .error (.sitemapError "Missing <loc> element while parsing <url> in sitemap")
  ∧ resource_from_etree badSizeElem
      = .error (.exception ("Invalid <rs:size> for " ++ "u"))
  ∧ (∃ r ws, resource_from_etree sha1Elem = .ok (r, ws) ∧ r.md5 = none
      ∧ ws.any (fun wn => match wn with
          | .unsupportedFixity _ _ => true
          | .unknownFixity _ _ => true
          | _ => false) = true)
  ∧ (∃ r ws, resource_from_etree bothTsElem = .ok (r, ws)
      ∧ r.changetype = some "DELETED" ∧ r.lastmod = some "200"
      ∧ Warning.lastmodAndExpires "u" ∈ ws) :=
  ⟨c6_record_error_classification.1 noLocElem rfl,
   c6_record_error_classification.2.1 badSizeElem "u" "big" rfl rfl rfl,
   c6_record_error_classification.2.2.1 sha1Elem "u"
     (XmlElem.mk (qn RS_NS "fixity") [("type", "sha-1")] (some "d") [] none)
     "sha-1" rfl (Or.inl rfl) rfl rfl (by decide),
   c6_record_error_classification.2.2.2 bothTsElem "u" "200"
     (XmlElem.mk (qn SITEMAP_NS "lastmod") [] (some "100") [] none)
     rfl (Or.inl rfl) rfl rfl⟩

/-- Recognizer for the dedup-conflict warning. -/
def isDupeW : Warning → Bool
  | .dupe _ _ _ => true
  | _ => false

/-- The resources a list of `url` elements parses to (successful records
only, in document order). -/
def parsedResources (us : List XmlElem) : List Resource :=
  us.filterMap (fun u => match resource_from_etree u with
    | .ok rw => some rw.1
    | .error _ => none)

theorem rfe_error_missing_loc (t : XmlElem)
    (h : findtext t (qn SITEMAP_NS "loc") = none) :
    resource_from_etree t = .error (.sitemapError
      "Missing <loc> element while parsing <url> in sitemap") := by
  simp [resource_from_etree, h]

theorem rfe_error_bad_size (t : XmlElem) (loc sz : String)
    (hloc : findtext t (qn SITEMAP_NS "loc") = some loc)
    (hsz : findtext t (qn RS_NS "size") = some sz) (hbad : pyInt? sz = none) :
    resource_from_etree t
      = .error (.exception ("Invalid <rs:size> for " ++ loc)) := by
  simp [resource_from_etree, hloc, hsz, hbad]

theorem rfe_ok_no_dupe (t : XmlElem) (loc : String)
    (hloc : findtext t (qn SITEMAP_NS "loc") = some loc)
    (hsz : findtext t (qn RS_NS "size") = none
      ∨ ∃ z n, findtext t (qn RS_NS "size") = some z ∧ pyInt? z = some n) :
    ∃ r ws, resource_from_etree t = .ok (r, ws) ∧ ws.countP isDupeW = 0 := by
  rcases hsz with hs | ⟨z, n, hs, hn⟩ <;>
  rcases hlm : findChild t (qn SITEMAP_NS "lastmod") with _ | le <;>
  rcases hex : findtext t (qn SITEMAP_NS "expires") with _ | ex
  all_goals simp only [resource_from_etree, hloc, hs, hlm, hex]
  all_goals try simp only [hn]
  all_goals repeat' split
  all_goals refine ⟨_, _, rfl, ?_⟩
  all_goals simp [isDupeW, List.countP_append, List.countP_cons, List.countP_nil]

theorem rfe_ok_inversion (t : XmlElem) (r : Resource) (ws : List Warning)
    (h : resource_from_etree t = .ok (r, ws)) :
    (∃ loc, findtext t (qn SITEMAP_NS "loc") = some loc)
    ∧ (findtext t (qn RS_NS "size") = none
        ∨ ∃ z n, findtext t (qn RS_NS "size") = some z ∧ pyInt? z = some n) := by
  constructor
  · rcases hloc : findtext t (qn SITEMAP_NS "loc") with _ | loc
    · rw [rfe_error_missing_loc t hloc] at h
      exact Except.noConfusion h
    · exact ⟨loc, rfl⟩
  · rcases hs : findtext t (qn RS_NS "size") with _ | z
    · exact Or.inl rfl
    · rcases hloc : findtext t (qn SITEMAP_NS "loc") with _ | loc
      · rw [rfe_error_missing_loc t hloc] at h
        exact Except.noConfusion h
      · rcases hn : pyInt? z with _ | n
        · rw [rfe_error_bad_size t loc z hloc hs hn] at h
          exact Except.noConfusion h
        · exact Or.inr ⟨z, n, rfl, hn⟩

theorem rfe_warnings_no_dupe (t : XmlElem) (r : Resource) (ws : List Warning)
    (h : resource_from_etree t = .ok (r, ws)) : ws.countP isDupeW = 0 := by
  obtain ⟨⟨loc, hloc⟩, hsz⟩ := rfe_ok_inversion t r ws h
  obtain ⟨r2, ws2, heq, hc⟩ := rfe_ok_no_dupe t loc hloc hsz
  have h2 := heq.symm.trans h
  simp only [Except.ok.injEq, Prod.mk.injEq] at h2
  obtain ⟨hr, hw⟩ := h2
  subst hw
  exact hc

theorem parseUrlElements_spec (us : List XmlElem) :
    ∀ (rs0 : List (String × Resource)) (caps : Caps) (cnt : Nat)
      (ws0 : List Warning),
      (∀ u ∈ us, ∃ rw, resource_from_etree u = .ok rw) →
      ∃ rs1 ws1,
        parseUrlElements us (.inventory rs0 caps) cnt ws0
          = .ok (.inventory rs1 caps, cnt + us.length, ws0 ++ ws1)
        ∧ (∀ uri : String, rs1.lookup uri
            = (rs0.lookup uri).or
              ((parsedResources us).find? (fun r => r.uri = uri)))
        ∧ rs1.length + ws1.countP isDupeW = rs0.length + us.length := by
  induction us with
  | nil =>
    intro rs0 caps cnt ws0 _
    exact ⟨rs0, [], by simp [parseUrlElements],
      by intro uri; simp [parsedResources], by simp⟩
  | cons u us ih =>
    intro rs0 caps cnt ws0 hok
    obtain ⟨⟨r, w⟩, hu⟩ := hok u (by simp)
    have hok2 : ∀ v ∈ us, ∃ rw, resource_from_etree v = .ok rw :=
      fun v hv => hok v (by simp [hv])
    have hparsed : parsedResources (u :: us) = r :: parsedResources us := by
      simp [parsedResources, hu]
    have hw0 := rfe_warnings_no_dupe u r w hu
    by_cases hdup : (rs0.lookup r.uri).isSome
    · have hadd : (Container.inventory rs0 caps).add r = .error .dupeError := by
        simp [Container.add, hdup]
      obtain ⟨rs1, ws1, heq, hlook, hcnt⟩ :=
        ih rs0 caps (cnt + 1)
          (ws0 ++ w ++ [.dupe r.uri r.lastmod
            ((Container.resLookup (.inventory rs0 caps) r.uri).bind
              (fun rr => rr.lastmod))]) hok2
      refine ⟨rs1, w ++ [.dupe r.uri r.lastmod
          ((Container.resLookup (.inventory rs0 caps) r.uri).bind
            (fun rr => rr.lastmod))] ++ ws1, ?_, ?_, ?_⟩
      · have hstep : parseUrlElements (u :: us) (.inventory rs0 caps) cnt ws0
            = parseUrlElements us (.inventory rs0 caps) (cnt + 1)
                (ws0 ++ w ++ [.dupe r.uri r.lastmod
                  ((Container.resLookup (.inventory rs0 caps) r.uri).bind
                    (fun rr => rr.lastmod))]) := by
          simp only [parseUrlElements, hu, hadd]
        rw [hstep, heq]
        refine congrArg Except.ok (Prod.ext rfl (Prod.ext ?_ ?_))
        · simp only [List.length_cons]
          omega
        · simp [List.append_assoc]
      · intro uri
        rw [hlook uri, hparsed]
        by_cases huri : r.uri = uri
        · subst huri
          obtain ⟨old, hold⟩ := Option.isSome_iff_exists.mp hdup
          rw [List.find?_cons_of_pos _ (by simp)]
          simp [hold]
        · rw [List.find?_cons_of_neg _ (by simp [huri])]
      · have hgoal : (w ++ [Warning.dupe r.uri r.lastmod
            ((Container.resLookup (.inventory rs0 caps) r.uri).bind
              (fun rr => rr.lastmod))] ++ ws1).countP isDupeW
            = w.countP isDupeW + (1 + ws1.countP isDupeW) := by
          simp [List.countP_append, List.countP_cons, isDupeW]
          omega
        rw [hgoal, hw0]
        simp only [List.length_cons]
        omega
    · have hadd : (Container.inventory rs0 caps).add r
          = .ok (.inventory (rs0 ++ [(r.uri, r)]) caps) := by
        simp [Container.add, hdup]
      obtain ⟨rs1, ws1, heq, hlook, hcnt⟩ :=
        ih (rs0 ++ [(r.uri, r)]) caps (cnt + 1) (ws0 ++ w) hok2
      refine ⟨rs1, w ++ ws1, ?_, ?_, ?_⟩
      · have hstep : parseUrlElements (u :: us) (.inventory rs0 caps) cnt ws0
            = parseUrlElements us (.inventory (rs0 ++ [(r.uri, r)]) caps)
                (cnt + 1) (ws0 ++ w) := by
          simp only [parseUrlElements, hu, hadd]
        rw [hstep, heq]
        refine congrArg Except.ok (Prod.ext rfl (Prod.ext ?_ ?_))
        · simp only [List.length_cons]
          omega
        · simp [List.append_assoc]
      · intro uri
        rw [hlook uri, hparsed, List.lookup_append]
        by_cases huri : r.uri = uri
        · subst huri
          rw [List.find?_cons_of_pos _ (by simp)]
          have hnone := Option.not_isSome_iff_eq_none.mp hdup
          simp [List.lookup, hnone]
        · rw [List.find?_cons_of_neg _ (by simp [huri])]
          have hb : (uri == r.uri) = false := by
            simp only [beq_eq_false_iff_ne, ne_eq]
            exact fun hh => huri hh.symm
          have hl : List.lookup uri [(r.uri, r)] = none := by
            simp [List.lookup, hb]
          simp [hl, Option.or_assoc]
      · have hgoal : (w ++ ws1).countP isDupeW
            = w.countP isDupeW + ws1.countP isDupeW := List.countP_append _ _ _
        rw [hgoal, hw0]
        simp only [List.length_append, List.length_cons, List.length_nil] at hcnt
        simp only [List.length_cons]
        omega

/-- C7: parsing a `urlset` into an (initially empty) Inventory dedupes by
uri: the parse succeeds with every `url` element counted, each uri maps to
the first-seen record for it (later duplicates are dropped), and exactly one
dedup warning is logged per dropped record (`kept records + dedup warnings =
records parsed`), so duplicates neither abort the parse nor displace the
first-seen entry. -/
theorem c7_duplicate_uri_dedup (tree : XmlElem)
    (hroot : tree.tag = qn SITEMAP_NS "urlset")
    (hok : ∀ u ∈ tree.children.filter (fun c => c.tag = qn SITEMAP_NS "url"),
      ∃ rw, resource_from_etree u = .ok rw) :
    ∃ rs1 ws1,
      inventory_parse_xml tree (.inventory [] [])
        = .ok (.inventory rs1 [],
            (tree.children.filter (fun c => c.tag = qn SITEMAP_NS "url")).length,
            ws1)
      ∧ (∀ uri : String, rs1.lookup uri
          = (parsedResources (tree.children.filter
              (fun c => c.tag = qn SITEMAP_NS "url"))).find?
                (fun r => r.uri = uri))
      ∧ rs1.length + ws1.countP isDupeW
          = (tree.children.filter
              (fun c => c.tag = qn SITEMAP_NS "url")).length := by
  obtain ⟨rs1, ws1, heq, hlook, hcnt⟩ :=
    parseUrlElements_spec
      (tree.children.filter (fun c => c.tag = qn SITEMAP_NS "url"))
      [] [] 0 [] hok
  refine ⟨rs1, ws1, ?_, ?_, ?_⟩
  · simp only [inventory_parse_xml, hroot, if_pos]
    simpa using heq
  · intro uri
    simpa using hlook uri
  · simpa using hcnt

/-- A `url` element whose uri `u` carries timestamp 100. -/
def dupUrl1 : XmlElem := XmlElem.mk (qn SITEMAP_NS "url") [] none
  [XmlElem.mk (qn SITEMAP_NS "loc") [] (some "u") [] none,
   XmlElem.mk (qn SITEMAP_NS "lastmod") [] (some "100") [] none] none

/-- A second `url` element with the same uri `u`, timestamp 200. -/
def dupUrl2 : XmlElem := XmlElem.mk (qn SITEMAP_NS "url") [] none
  [XmlElem.mk (qn SITEMAP_NS "loc") [] (some "u") [] none,
   XmlElem.mk (qn SITEMAP_NS "lastmod") [] (some "200") [] none] none

/-- A `url` element with the distinct uri `v`. -/
def dupUrl3 : XmlElem := XmlElem.mk (qn SITEMAP_NS "url") [] none
  [XmlElem.mk (qn SITEMAP_NS "loc") [] (some "v") [] none] none

/-- A `urlset` document carrying a duplicated uri. -/
def dupTree : XmlElem :=
  XmlElem.mk (qn SITEMAP_NS "urlset") [] none [dupUrl1, dupUrl2, dupUrl3] none

/-- C7 witness: the dedup behavior at a concrete three-record document with
one duplicated uri. -/
theorem c7_witness :
    ∃ rs1 ws1,
      inventory_parse_xml dupTree (.inventory [] [])
        = .ok (.inventory rs1 [],
            (dupTree.children.filter
              (fun c => c.tag = qn SITEMAP_NS "url")).length, ws1)
      ∧ (∀ uri : String, rs1.lookup uri
          = (parsedResources (dupTree.children.filter
              (fun c => c.tag = qn SITEMAP_NS "url"))).find?
                (fun r => r.uri = uri))
      ∧ rs1.length + ws1.countP isDupeW
          = (dupTree.children.filter
              (fun c => c.tag = qn SITEMAP_NS "url")).length :=
  c7_duplicate_uri_dedup dupTree rfl
    (by
      intro u hu
      have hin : u = dupUrl1 ∨ u = dupUrl2 ∨ u = dupUrl3 := by
        simpa [dupTree, dupUrl1, dupUrl2, dupUrl3, XmlElem.children,
          XmlElem.tag, List.filter] using hu
      rcases hin with rfl | rfl | rfl
      · exact ⟨_, rfl⟩
      · exact ⟨_, rfl⟩
      · exact ⟨_, rfl⟩)

theorem ree_tag (s : Sitemap) (r : Resource) (name : String) (e : XmlElem)
    (h : resource_etree_element s r name = .ok e) : e.tag = name := by
  simp only [resource_etree_element] at h
  split at h
  · exact Except.noConfusion h
  · simp only [Except.ok.injEq] at h
    subst h
    rfl

theorem addResources_tags (s : Sitemap) :
    ∀ (rs : List Resource) (num : Option Int) (es : List XmlElem),
      addResources s rs num = .ok es → ∀ e ∈ es, e.tag = "url" := by
  intro rs
  induction rs with
  | nil =>
    intro num es h e he
    simp only [addResources, Except.ok.injEq] at h
    subst h
    simp at he
  | cons r rest ih =>
    intro num es h e he
    rcases hre : resource_etree_element s r "url" with err | e1
    · simp [addResources, hre] at h
    · rcases num with _ | n
      · rcases hrest : addResources s rest none with err2 | es2
        · simp [addResources, hre, hrest] at h
        · simp only [addResources, hre, hrest, Except.ok.injEq] at h
          subst h
          rcases List.mem_cons.mp he with rfl | he2
          · exact ree_tag s r "url" _ hre
          · exact ih none es2 hrest e he2
      · by_cases hn : n - 1 = 0
        · simp only [addResources, hre, hn, if_pos, Except.ok.injEq] at h
          subst h
          rcases List.mem_cons.mp he with rfl | he2
          · exact ree_tag s r "url" _ hre
          · simp at he2
        · rcases hrest : addResources s rest (some (n - 1)) with err2 | es2
          · simp [addResources, hre, hrest, hn] at h
          · simp only [addResources, hre, hrest, if_neg hn,
              Except.ok.injEq] at h
            subst h
            rcases List.mem_cons.mp he with rfl | he2
            · exact ree_tag s r "url" _ hre
            · exact ih (some (n - 1)) es2 hrest e he2

theorem lookup_some_mem :
    ∀ (caps : Caps) (k : String) (v : List (String × AttrVal)),
      caps.lookup k = some v → (k, v) ∈ caps := by
  intro caps
  induction caps with
  | nil => intro k v h; simp [List.lookup] at h
  | cons p rest ih =>
    intro k v h
    rcases p with ⟨a, b⟩
    by_cases hk : k = a
    · subst hk
      simp [List.lookup] at h
      subst h
      simp
    · have hb : (k == a) = false := beq_eq_false_iff_ne.mpr hk
      simp only [List.lookup, hb] at h
      exact List.mem_cons_of_mem _ (ih k v h)

theorem lookup_isSome_of_mem_keys :
    ∀ (caps : Caps) (k : String), k ∈ caps.map Prod.fst →
      (caps.lookup k).isSome := by
  intro caps
  induction caps with
  | nil => intro k h; simp at h
  | cons p rest ih =>
    intro k h
    rcases p with ⟨a, b⟩
    by_cases hk : k = a
    · subst hk
      simp [List.lookup]
    · have hb : (k == a) = false := beq_eq_false_iff_ne.mpr hk
      simp only [List.map, List.mem_cons] at h
      rcases h with h | h
    
      · exact absurd h hk
      · simp only [List.lookup, hb]
        exact ih k h

theorem assocSet_fresh :
    ∀ (atts : List (String × String)) (a v : String),
      a ∉ atts.map Prod.fst → assocSet atts a v = atts ++ [(a, v)] := by
  intro atts
  induction atts with
  | nil => intro a v _; rfl
  | cons p rest ih =>
    intro a v h
    rcases p with ⟨k, w⟩
    simp only [List.map, List.mem_cons, not_or] at h
    have hne : ¬ k = a := fun hh => h.1 hh.symm
    simp only [assocSet, if_neg hne]
    rw [ih a v h.2]
    simp

/-- The spec's renaming of the reserved attribute key (spec §4.5). -/
def renameKey (a : String) : String := if a = "attributes" then "rel" else a

/-- The spec's flattening of an attribute value: multi-valued attributes are
serialized as a single space-joined string (spec §4.5). -/
def flatVal : AttrVal → String
  | .str v => v
  | .multi vs => String.intercalate " " vs

/-- Written from the spec's words (§4.5), for comparison with the code: one
link-style element per capability, `href` set to the capability URI, every
other attribute copied with the reserved key renamed and multi-values
space-joined. -/
def capLinkSpecElem (s : Sitemap) (capabilities : Caps) (c : String) :
    XmlElem :=
  XmlElem.mk "xhtml:link"
    ([("href", c)] ++ ((capabilities.lookup c).getD []).map
      (fun p => (renameKey p.1, flatVal p.2)))
    none [] (if s.pretty_xml then some "\n" else none)

theorem capAttrs_foldl (attrs : List (String × AttrVal)) :
    ∀ acc : List (String × String),
      (∀ p ∈ attrs, renameKey p.1 ∉ acc.map Prod.fst) →
      (attrs.map (fun p => renameKey p.1)).Nodup →
      attrs.foldl (fun atts p =>
        let a := if p.1 = "attributes" then "rel" else p.1
        let v := match p.2 with
          | .str v => v
          | .multi vs => String.intercalate " " vs
        assocSet atts a v) acc
      = acc ++ attrs.map (fun p => (renameKey p.1, flatVal p.2)) := by
  induction attrs with
  | nil => intro acc _ _; simp
  | cons p rest ih =>
    intro acc hfresh hnd
    rw [List.foldl_cons]
    have hstep : (let a := if p.1 = "attributes" then "rel" else p.1
        let v := match p.2 with
          | .str v => v
          | .multi vs => String.intercalate " " vs
        assocSet acc a v) = acc ++ [(renameKey p.1, flatVal p.2)] := by
      show assocSet acc _ _ = _
      rw [show (if p.1 = "attributes" then "rel" else p.1) = renameKey p.1
        from rfl]
      rw [assocSet_fresh acc (renameKey p.1) _ (hfresh p (by simp))]
      rfl
    rw [hstep]
    simp only [List.map, List.nodup_cons] at hnd
    rw [ih (acc ++ [(renameKey p.1, flatVal p.2)]) ?_ hnd.2]
    · simp
    · intro q hq
      simp only [List.map_append, List.mem_append]
      rintro (hin | hin)
      · exact hfresh q (by simp [hq]) hin
      · simp only [List.map, List.mem_singleton] at hin
        exact hnd.1 (hin ▸ List.mem_map_of_mem (fun p => renameKey p.1) hq)

theorem capAttrs_eq (c : String) (attrs : List (String × AttrVal))
    (hnd : ("href" :: attrs.map (fun p => renameKey p.1)).Nodup) :
    capAttrs c attrs
      = [("href", c)] ++ attrs.map (fun p => (renameKey p.1, flatVal p.2)) := by
  simp only [List.nodup_cons] at hnd
  exact capAttrs_foldl attrs [("href", c)]
    (fun p hp => by
      simp only [List.map, List.mem_singleton]
      exact fun hh => hnd.1 (hh ▸ List.mem_map_of_mem (fun q => renameKey q.1) hp))
    hnd.2

/-- C8: capability-link rendering.  (a) `add_capabilities_to_etree` emits, in
sorted capability-URI order (the key list is `≤`-sorted and a permutation of
the capability keys), exactly the link element the spec describes: `href` is
the capability URI, the reserved key `attributes` is renamed to `rel`, every
other attribute is copied, and multi-valued attributes are space-joined.
(b) A container with zero capabilities produces a document with no
`xhtml:link` element even though rendering was requested.  (c) Part documents
(written via `resources_as_xml` with capabilities suppressed, as the
multifile write path does) never contain an `xhtml:link` element. -/
theorem c8_capability_links (s : Sitemap) (caps : Caps) (c : Container)
    (hnd : ∀ p ∈ caps,
      ("href" :: p.2.map (fun q => renameKey q.1)).Nodup)
    (hkeys : (caps.map Prod.fst).Nodup) :
    (add_capabilities_to_etree s caps
        = (sortedKeys caps).map (capLinkSpecElem s caps)
      ∧ List.Sorted (fun a b => a ≤ b) (sortedKeys caps)
      ∧ (sortedKeys caps).Perm (caps.map Prod.fst))
  ∧ (c.capabilities = [] → ∀ (num : Option Int) (x : XmlElem),
      resources_as_xml s (.cont c) num true = .ok x →
      x.children.countP (fun e => e.tag = "xhtml:link") = 0)
  ∧ (∀ (rs : List Resource) (num : Option Int) (x : XmlElem),
      resources_as_xml s (.plainList rs) num false = .ok x →
      x.children.countP (fun e => e.tag = "xhtml:link") = 0) := by
  refine ⟨⟨?_, ?_, ?_⟩, ?_, ?_⟩
  · apply List.map_eq_map_iff.mpr
    intro k hk
    have hmemkeys : k ∈ caps.map Prod.fst :=
      (List.perm_insertionSort (fun a b => a ≤ b) (caps.map Prod.fst)).subset hk
    obtain ⟨attrs, hattrs⟩ :=
      Option.isSome_iff_exists.mp (lookup_isSome_of_mem_keys caps k hmemkeys)
    have hmem := lookup_some_mem caps k attrs hattrs
    simp only [capLinkSpecElem, hattrs, Option.getD_some]
    rw [capAttrs_eq k attrs (hnd (k, attrs) hmem)]
  · exact List.sorted_insertionSort (fun a b => a ≤ b) (caps.map Prod.fst)
  · exact List.perm_insertionSort (fun a b => a ≤ b) (caps.map Prod.fst)
  · intro hc num x h
    simp only [resources_as_xml, ResArg.capabilities, hc] at h
    rcases hadd : addResources s (ResArg.cont c).toList num with err | es
    · simp [hadd] at h
    · simp [hadd] at h
      subst h
      simp only [XmlElem.children]
      apply List.countP_eq_zero.mpr
      intro e he
      have := addResources_tags s (ResArg.cont c).toList num es hadd e
        (by simpa using he)
      simp [this]
  · intro rs num x h
    simp only [resources_as_xml] at h
    rcases hadd : addResources s (ResArg.plainList rs).toList num with err | es
    · simp [hadd] at h
    · simp [hadd] at h
      subst h
      simp only [XmlElem.children]
      apply List.countP_eq_zero.mpr
      intro e he
      have := addResources_tags s (ResArg.plainList rs).toList num es hadd e
        (by simpa using he)
      simp [this]

/-- A concrete capability mapping with two capabilities, listed unsorted,
one with a multi-valued reserved attribute. -/
def capSet : Caps :=
  [("http://cap.org/b", [("type", AttrVal.str "changeset")]),
   ("http://cap.org/a", [("attributes", AttrVal.multi ["up", "describedby"])])]

/-- C8 witness: capability-link rendering at a concrete capability set,
zero-capability container and concrete part chunk. -/
theorem c8_witness :
    (add_capabilities_to_etree defaultSitemap capSet
        = (sortedKeys capSet).map (capLinkSpecElem defaultSitemap capSet)
      ∧ List.Sorted (fun a b => a ≤ b) (sortedKeys capSet)
      ∧ (sortedKeys capSet).Perm (capSet.map Prod.fst))
  ∧ ((Container.inventory [] []).capabilities = []
      → ∀ (num : Option Int) (x : XmlElem),
      resources_as_xml defaultSitemap (.cont (.inventory [] [])) num true
        = .ok x →
      x.children.countP (fun e => e.tag = "xhtml:link") = 0)
  ∧ (∀ (rs : List Resource) (num : Option Int) (x : XmlElem),
      resources_as_xml defaultSitemap (.plainList rs) num false = .ok x →
      x.children.countP (fun e => e.tag = "xhtml:link") = 0) :=
  c8_capability_links defaultSitemap capSet (.inventory [] [])
    (by decide) (by decide)

/-- A resource whose change kind (if any, and only when it has a timestamp)
is one the serializer recognizes. -/
def goodKind (r : Resource) : Bool :=
  match r.lastmod, r.changetype with
  | none, _ => true
  | some _, none => true
  | some _, some ct => ct = "CREATED" || ct = "UPDATED" || ct = "DELETED"

theorem ree_ok_of_goodKind (s : Sitemap) (r : Resource) (name : String)
    (h : goodKind r = true) :
    ∃ e, resource_etree_element s r name = .ok e := by
  rcases hlm : r.lastmod with _ | lm
  · refine ⟨XmlElem.mk name [] none
      ([XmlElem.mk "loc" [] (some r.uri) [] none] ++ sizeElems r ++ md5Elems r)
      (if s.pretty_xml then some "\n" else none), ?_⟩
    cases hs : r.size <;> cases hm : r.md5 <;>
      simp [resource_etree_element, hlm, sizeElems, md5Elems, hs, hm]
  · rcases hct : r.changetype with _ | ct
    · refine ⟨XmlElem.mk name [] none
        ([XmlElem.mk "loc" [] (some r.uri) [] none,
          XmlElem.mk "lastmod" [] (some lm) [] none]
          ++ sizeElems r ++ md5Elems r)
        (if s.pretty_xml then some "\n" else none), ?_⟩
      cases hs : r.size <;> cases hm : r.md5 <;>
        simp [resource_etree_element, hlm, hct, sizeElems, md5Elems, hs, hm]
    · simp only [goodKind, hlm, hct, Bool.or_eq_true, decide_eq_true_eq] at h
      by_cases h1 : ct = "CREATED"
      · refine ⟨XmlElem.mk name [] none
          ([XmlElem.mk "loc" [] (some r.uri) [] none,
            XmlElem.mk "lastmod" [("rs:type", "created")] (some lm) [] none]
            ++ sizeElems r ++ md5Elems r)
          (if s.pretty_xml then some "\n" else none), ?_⟩
        cases hs : r.size <;> cases hm : r.md5 <;>
          simp [resource_etree_element, hlm, hct, h1, sizeElems, md5Elems,
            hs, hm]
      · by_cases h2 : ct = "UPDATED"
        · refine ⟨XmlElem.mk name [] none
            ([XmlElem.mk "loc" [] (some r.uri) [] none,
              XmlElem.mk "lastmod" [("rs:type", "updated")] (some lm) [] none]
              ++ sizeElems r ++ md5Elems r)
            (if s.pretty_xml then some "\n" else none), ?_⟩
          cases hs : r.size <;> cases hm : r.md5 <;>
            simp [resource_etree_element, hlm, hct, h1, h2, sizeElems,
              md5Elems, hs, hm]
        · have h3 : ct = "DELETED" := by
            rcases h with (h | h) | h
            · exact absurd h h1
            · exact absurd h h2
            · exact h
          refine ⟨XmlElem.mk name [] none
            ([XmlElem.mk "loc" [] (some r.uri) [] none,
              XmlElem.mk "expires" [] (some lm) [] none]
              ++ sizeElems r ++ md5Elems r)
            (if s.pretty_xml then some "\n" else none), ?_⟩
          cases hs : r.size <;> cases hm : r.md5 <;>
            simp [resource_etree_element, hlm, hct, h1, h2, h3, sizeElems,
              md5Elems, hs, hm]

theorem addResources_ok (s : Sitemap) :
    ∀ rs : List Resource, (∀ r ∈ rs, goodKind r = true) →
      ∃ es, addResources s rs none = .ok es ∧ es.length = rs.length := by
  intro rs
  induction rs with
  | nil => exact fun _ => ⟨[], rfl, rfl⟩
  | cons r rest ih =>
    intro h
    obtain ⟨e, he⟩ := ree_ok_of_goodKind s r "url" (h r (by simp))
    obtain ⟨es, hes, hlen⟩ := ih (fun q hq => h q (by simp [hq]))
    exact ⟨e :: es, by simp [addResources, he, hes], by simp [hlen]⟩

theorem resources_as_xml_parts_ok (s : Sitemap) (chunk : List Resource)
    (h : ∀ r ∈ chunk, goodKind r = true) :
    ∃ x, resources_as_xml s (.plainList chunk) none false = .ok x
      ∧ x.children.countP (fun e => e.tag = "url") = chunk.length := by
  obtain ⟨es, hes, hlen⟩ := addResources_ok s chunk h
  refine ⟨XmlElem.mk "urlset" [("xmlns", SITEMAP_NS), ("xmlns:rs", RS_NS)]
    (if s.pretty_xml then some "\n" else none) es none, ?_, ?_⟩
  · simp [resources_as_xml, ResArg.toList, hes]
  · simp only [XmlElem.children]
    rw [← hlen]
    apply List.countP_eq_length.mpr
    intro e he
    have := addResources_tags s chunk none es hes e he
    simp [this]

theorem writeParts_nil (s : Sitemap) (w : World) (stem suf : String)
    (next : Option Resource) (it : List Resource)
    (sm : List (String × Nat)) :
    writeParts s w stem suf [] next it sm = ([], .ok (), sm) := by
  rw [writeParts]
  simp

theorem writeParts_cons (s : Sitemap) (w : World) (stem suf : String)
    (chunk : List Resource) (next : Option Resource) (it : List Resource)
    (sm : List (String × Nat)) (x : XmlElem)
    (hch : ¬ chunk.length = 0)
    (hx : resources_as_xml s (.plainList chunk) none false = .ok x) :
    writeParts s w stem suf chunk next it sm
      = ([.openW (stem ++ fmt5 sm.length ++ suf),
          .writeDoc (stem ++ fmt5 sm.length ++ suf) x]
          ++ (writeParts s w stem suf
              (get_resources_chunk s.max_sitemap_entries it next).1
              (get_resources_chunk s.max_sitemap_entries it next).2.1
              (get_resources_chunk s.max_sitemap_entries it next).2.2
              (sm ++ [(stem ++ fmt5 sm.length ++ suf,
                w.mtime (stem ++ fmt5 sm.length ++ suf))])).1,
         (writeParts s w stem suf
              (get_resources_chunk s.max_sitemap_entries it next).1
              (get_resources_chunk s.max_sitemap_entries it next).2.1
              (get_resources_chunk s.max_sitemap_entries it next).2.2
              (sm ++ [(stem ++ fmt5 sm.length ++ suf,
                w.mtime (stem ++ fmt5 sm.length ++ suf))])).2.1,
         (writeParts s w stem suf
              (get_resources_chunk s.max_sitemap_entries it next).1
              (get_resources_chunk s.max_sitemap_entries it next).2.1
              (get_resources_chunk s.max_sitemap_entries it next).2.2
              (sm ++ [(stem ++ fmt5 sm.length ++ suf,
                w.mtime (stem ++ fmt5 sm.length ++ suf))])).2.2) := by
  conv_lhs => rw [writeParts]
  simp only [dif_neg hch, hx]

theorem add_cap_tags (s : Sitemap) (caps : Caps) :
    ∀ e ∈ add_capabilities_to_etree s caps, e.tag = "xhtml:link" := by
  intro e he
  simp only [add_capabilities_to_etree, List.mem_map] at he
  obtain ⟨k, _, rfl⟩ := he
  rfl

theorem sitemapindex_two_ok (s : Sitemap) (m : Mapper) (f0 f1 : String)
    (t0 t1 : Nat) (c : Container) (hm : s.mapper = some m) :
    ∃ idx, sitemapindex_as_xml s [(f0, t0), (f1, t1)] c true = .ok idx
      ∧ (idx.children.filter (fun e => e.tag = "sitemap")).map
          (fun e => findtext e "loc")
        = [some ((m.dst_to_src f0).getD ("file://" ++ f0)),
           some ((m.dst_to_src f1).getD ("file://" ++ f1))] := by
  have hcap := add_cap_tags s c.capabilities
  simp only [sitemapindex_as_xml, hm, List.foldr, resource_etree_element]
  refine ⟨_, rfl, ?_⟩
  simp only [XmlElem.children, List.filter_append]
  rw [List.filter_eq_nil.mpr (fun e he => by
    simp only [hcap e (by
      by_cases hinc : (true && decide (c.capabilities.length > 0)) = true
      · simpa [hinc] using he
      · simp [Bool.not_eq_true] at hinc
        simp [hinc] at he)]
    decide)]
  simp [XmlElem.tag, findtext, findChild, XmlElem.children, List.find?,
    XmlElem.text]

/-- C2: writing a container of exactly `max_sitemap_entries + 1` resources
with multifile enabled (and a mapper present for the index) produces exactly
two part documents holding `max_sitemap_entries` and `1` resources, named by
stripping the trailing `.xml` from the basename and appending the zero-padded
sequence numbers `00000` and `00001` plus `.xml`, followed by one
sitemapindex written at the basename whose `sitemap` entries list both part
locations (each translated by the mapper, falling back to a `file://` URI);
with multifile disabled the same write fails before any file operation. -/
theorem c2_chunking (s : Sitemap) (w : World) (m : Mapper) (c : Container)
    (basename : String)
    (hm : s.mapper = some m)
    (hmax : 1 ≤ s.max_sitemap_entries)
    (hlen : c.toList.length = s.max_sitemap_entries + 1)
    (hxml : basename.takeRight 4 = ".xml")
    (hser : ∀ r ∈ c.toList, goodKind r = true) :
    (s.allow_multifile = true →
      ∃ x0 x1 idx,
        write s w c basename
          = ([.openW (basename.dropRight 4 ++ "00000.xml"),
              .writeDoc (basename.dropRight 4 ++ "00000.xml") x0,
              .openW (basename.dropRight 4 ++ "00001.xml"),
              .writeDoc (basename.dropRight 4 ++ "00001.xml") x1,
              .openW basename, .writeDoc basename idx], none)
        ∧ x0.children.countP (fun e => e.tag = "url") = s.max_sitemap_entries
        ∧ x1.children.countP (fun e => e.tag = "url") = 1
        ∧ (idx.children.filter (fun e => e.tag = "sitemap")).map
            (fun e => findtext e "loc")
          = [some ((m.dst_to_src (basename.dropRight 4 ++ "00000.xml")).getD
                ("file://" ++ (basename.dropRight 4 ++ "00000.xml"))),
             some ((m.dst_to_src (basename.dropRight 4 ++ "00001.xml")).getD
                ("file://" ++ (basename.dropRight 4 ++ "00001.xml")))])
    ∧ (s.allow_multifile = false →
        write s w c basename
          = ([], some (.exception
              "Too many entries for a single sitemap but multifile disabled"))) := by
  obtain ⟨nxt, hnxt⟩ : ∃ v, c.toList[s.max_sitemap_entries]? = some v :=
    ⟨c.toList.get ⟨s.max_sitemap_entries, by omega⟩,
     List.getElem?_eq_getElem (by omega)⟩
  have hnxtmem : nxt ∈ c.toList := by
    have hlt : s.max_sitemap_entries < c.toList.length := by omega
    have h2 := List.getElem?_eq_getElem hlt
    rw [hnxt] at h2
    have h4 : nxt = c.toList[s.max_sitemap_entries] :=
      (Option.some.injEq _ _).mp h2
    exact h4 ▸ List.getElem_mem hlt
  have hg0 : get_resources_chunk s.max_sitemap_entries c.toList none
      = (c.toList.take s.max_sitemap_entries, some nxt, []) := by
    rw [grc_take s.max_sitemap_entries c.toList none (by simp)]
    simp only [Option.toList, List.nil_append]
    rw [hnxt, List.drop_eq_nil_of_le (by omega)]
  constructor
  · intro hmf
    have hg1 : get_resources_chunk s.max_sitemap_entries [] (some nxt)
        = ([nxt], none, []) := by
      rw [grc_take s.max_sitemap_entries [] (some nxt)
        (show (some nxt).toList.length ≤ s.max_sitemap_entries by
          simpa using hmax)]
      simp only [Option.toList, List.append_nil]
      rw [List.take_of_length_le
          (show ([nxt] : List Resource).length ≤ s.max_sitemap_entries by
            simpa using hmax),
        List.getElem?_eq_none
          (show ([nxt] : List Resource).length ≤ s.max_sitemap_entries by
            simpa using hmax),
        List.drop_eq_nil_of_le
          (show ([nxt] : List Resource).length ≤ s.max_sitemap_entries + 1 by
            simpa using Nat.le_succ_of_le hmax)]
    have hg2 : get_resources_chunk s.max_sitemap_entries [] none
        = ([], none, []) := grc_all s.max_sitemap_entries [] (by simp)
    obtain ⟨x0, hx0, hcnt0⟩ := resources_as_xml_parts_ok s
      (c.toList.take s.max_sitemap_entries)
      (fun r hr => hser r (List.take_subset _ _ hr))
    obtain ⟨x1, hx1, hcnt1⟩ := resources_as_xml_parts_ok s [nxt]
      (fun r hr => by
        rw [List.mem_singleton.mp hr]
        exact hser nxt hnxtmem)
    have hch0 : ¬ (c.toList.take s.max_sitemap_entries).length = 0 := by
      rw [List.length_take]
      omega
    have hw2 := writeParts_cons s w (basename.dropRight 4) ".xml" [nxt] none []
      [(basename.dropRight 4 ++ fmt5 0 ++ ".xml",
        w.mtime (basename.dropRight 4 ++ fmt5 0 ++ ".xml"))] x1 (by simp) hx1
    rw [hg2, writeParts_nil] at hw2
    have hw1 := writeParts_cons s w (basename.dropRight 4) ".xml"
      (c.toList.take s.max_sitemap_entries) (some nxt) [] [] x0 hch0 hx0
    rw [hg1] at hw1
    simp only [List.length_nil, List.nil_append, List.length_cons,
      List.length_singleton] at hw1 hw2
    rw [hw2] at hw1
    have hfmt0 : fmt5 0 = "00000" := rfl
    have hfmt1 : fmt5 1 = "00001" := rfl
    have hfmt01 : fmt5 (0 + 1) = "00001" := rfl
    obtain ⟨idx, hidx, hloc⟩ := sitemapindex_two_ok s m
      (basename.dropRight 4 ++ "00000" ++ ".xml")
      (basename.dropRight 4 ++ "00001" ++ ".xml")
      (w.mtime (basename.dropRight 4 ++ "00000" ++ ".xml"))
      (w.mtime (basename.dropRight 4 ++ "00001" ++ ".xml")) c hm
    simp only [hfmt0, hfmt01] at hw1
    refine ⟨x0, x1, idx, ?_, hcnt0.trans (by rw [List.length_take]; omega),
      by simpa using hcnt1, ?_⟩
    · simp [String.append_assoc] at hidx
      simp only [write, hg0, hmf, Bool.not_true, Bool.false_eq_true,
        if_neg, if_pos hxml]
      rw [hw1]
      simp [String.append_assoc, hidx]
    · simpa [String.append_assoc] using hloc
  · intro hmf
    simp only [write, hg0, hmf, Bool.not_false, if_true]

/-- A mapper translating local paths to published URIs and back. -/
def mapP : Mapper :=
  { src_to_dst := fun u => some ("/local" ++ u),
    dst_to_src := fun f => some ("http://map.org" ++ f) }

/-- A Sitemap configured with a one-entry-per-document threshold and the
concrete mapper. -/
def s2 : Sitemap := { mapper := some mapP, max_sitemap_entries := 1 }

/-- A two-resource container, one over the threshold of `s2`. -/
def c2c : Container := .changeset [rPlain, rDel] []

/-- C2 witness: the chunked write at a concrete two-resource container with
threshold 1. -/
theorem c2_witness :
    (s2.allow_multifile = true →
      ∃ x0 x1 idx,
        write s2 emptyWorld c2c "/tmp/sitemap.xml"
          = ([.openW ("/tmp/sitemap.xml".dropRight 4 ++ "00000.xml"),
              .writeDoc ("/tmp/sitemap.xml".dropRight 4 ++ "00000.xml") x0,
              .openW ("/tmp/sitemap.xml".dropRight 4 ++ "00001.xml"),
              .writeDoc ("/tmp/sitemap.xml".dropRight 4 ++ "00001.xml") x1,
              .openW "/tmp/sitemap.xml", .writeDoc "/tmp/sitemap.xml" idx],
             none)
        ∧ x0.children.countP (fun e => e.tag = "url") = s2.max_sitemap_entries
        ∧ x1.children.countP (fun e => e.tag = "url") = 1
        ∧ (idx.children.filter (fun e => e.tag = "sitemap")).map
            (fun e => findtext e "loc")
          = [some ((mapP.dst_to_src
                ("/tmp/sitemap.xml".dropRight 4 ++ "00000.xml")).getD
                ("file://" ++ ("/tmp/sitemap.xml".dropRight 4 ++ "00000.xml"))),
             some ((mapP.dst_to_src
                ("/tmp/sitemap.xml".dropRight 4 ++ "00001.xml")).getD
                ("file://" ++ ("/tmp/sitemap.xml".dropRight 4 ++ "00001.xml")))])
    ∧ (s2.allow_multifile = false →
        write s2 emptyWorld c2c "/tmp/sitemap.xml"
          = ([], some (.exception
              "Too many entries for a single sitemap but multifile disabled"))) :=
  c2_chunking s2 emptyWorld mapP c2c "/tmp/sitemap.xml" rfl (by decide)
    (by decide) (by decide) (by decide)

/-- The Content-Length the transport reports for a URI, if any. -/
def fetchLen (w : World) (u : String) : Option Nat :=
  match w.fetch u with
  | .ok p => p.1
  | .error _ => none

theorem read_urlset_stats (s : Sitemap) (w : World) (uri : String) (l : Nat)
    (tree : XmlElem) (c0 : Option Container) (st : Stats)
    (out : Container × Stats × List Warning)
    (hf : w.fetch uri = .ok (some l, tree))
    (hroot : tree.tag = qn SITEMAP_NS "urlset")
    (h : Sitemap.read s w uri c0 st = .ok out) :
    out.2.1.bytes_read = st.bytes_read + l
      ∧ out.2.1.sitemaps_created = some 1 := by
  simp only [Sitemap.read, hf, hroot, recordLen, if_pos] at h
  rcases hparse : inventory_parse_xml tree (c0.getD (.inventory [] []))
    with e | pout
  · rw [hparse] at h
    exact Except.noConfusion h
  · rw [hparse] at h
    simp only [Except.ok.injEq] at h
    subst h
    exact ⟨rfl, rfl⟩

theorem readParts_bytes (s : Sitemap) (w : World) (indexUri : String) :
    ∀ (keys : List String) (resources : Container) (st : Stats)
      (warns : List Warning) (out : Container × Stats × List Warning),
      readParts s w indexUri false keys resources st warns = .ok out →
      out.2.1.bytes_read = st.bytes_read
        + (keys.map (fun k => (fetchLen w k).getD 0)).sum := by
  intro keys
  induction keys with
  | nil =>
    intro resources st warns out h
    simp only [readParts, Except.ok.injEq] at h
    subst h
    simp
  | cons k rest ih =>
    intro resources st warns out h
    simp only [readParts, Bool.false_and, Bool.false_eq_true, if_false] at h
    rcases hfk : w.fetch k with msg | fr
    · simp [hfk] at h
    · simp only [hfk] at h
      rcases hcl : (recordLen st fr.1).content_length with _ | cl
      · simp [hcl] at h
      · simp only [hcl] at h
        rcases hparse : inventory_parse_xml fr.2 resources with e | pout
        · simp [hparse] at h
        · simp only [hparse] at h
          have hrec := ih pout.1 _ _ out h
          rw [hrec]
          have hb : (recordLen st fr.1).bytes_read
              = st.bytes_read + ((fetchLen w k).getD 0) := by
            rcases hl : fr.1 with _ | l <;>
              simp [recordLen, hl, fetchLen, hfk]
          simp only [List.map, List.sum_cons]
          simp only [hb]
          omega

/-- C10: `bytes_read` is initialised to zero only at construction and is
never reset: a successful read of a single document adds its Content-Length
to the incoming total (while `sitemaps_created` is re-zeroed on each read and
ends at 1 for a single document regardless of its prior value), two
successive reads on the same instance leave the sum of both lengths, and an
index read adds the index's length plus the length of every part it
fetches. -/
theorem c10_bytes_read_accumulates :
    initStats.bytes_read = 0
  ∧ (∀ (s : Sitemap) (w : World) (uri : String) (l : Nat) (tree : XmlElem)
      (d0 : Option Container) (st : Stats)
      (out : Container × Stats × List Warning),
      w.fetch uri = .ok (some l, tree) → tree.tag = qn SITEMAP_NS "urlset" →
      Sitemap.read s w uri d0 st = .ok out →
      out.2.1.bytes_read = st.bytes_read + l
        ∧ out.2.1.sitemaps_created = some 1)
  ∧ (∀ (s : Sitemap) (w : World) (uri1 uri2 : String) (l1 l2 : Nat)
      (t1 t2 : XmlElem) (d1 d2 : Option Container)
      (out1 out2 : Container × Stats × List Warning),
      w.fetch uri1 = .ok (some l1, t1) → t1.tag = qn SITEMAP_NS "urlset" →
      Sitemap.read s w uri1 d1 initStats = .ok out1 →
      w.fetch uri2 = .ok (some l2, t2) → t2.tag = qn SITEMAP_NS "urlset" →
      Sitemap.read s w uri2 d2 out1.2.1 = .ok out2 →
      out2.2.1.bytes_read = l1 + l2)
  ∧ (∀ (s : Sitemap) (w : World) (uri : String) (lIdx : Nat) (tree : XmlElem)
      (d0 : Option Container) (st : Stats)
      (out : Container × Stats × List Warning)
      (sidx : Container) (scnt : Nat) (swarns : List Warning),
      w.fetch uri = .ok (some lIdx, tree) →
      tree.tag = qn SITEMAP_NS "sitemapindex" →
      is_file_uri uri = false →
      sitemapindex_parse_xml tree = .ok (sidx, scnt, swarns) →
      Sitemap.read s w uri d0 st = .ok out →
      out.2.1.bytes_read = st.bytes_read + lIdx
        + ((List.insertionSort (fun a b => a ≤ b) sidx.keys).map
            (fun k => (fetchLen w k).getD 0)).sum) := by
  refine ⟨rfl, ?_, ?_, ?_⟩
  · intro s w uri l tree d0 st out hf hroot h
    exact read_urlset_stats s w uri l tree d0 st out hf hroot h
  · intro s w uri1 uri2 l1 l2 t1 t2 d1 d2 out1 out2 hf1 hr1 h1 hf2 hr2 h2
    have ha := read_urlset_stats s w uri1 l1 t1 d1 initStats out1 hf1 hr1 h1
    have hb := read_urlset_stats s w uri2 l2 t2 d2 out1.2.1 out2 hf2 hr2 h2
    rw [hb.1, ha.1]
    simp [initStats]
  · intro s w uri lIdx tree d0 st out sidx scnt swarns hf hroot hnf hsp h
    have hqne : qn SITEMAP_NS "sitemapindex" ≠ qn SITEMAP_NS "urlset" := by
      decide
    simp only [Sitemap.read, hf, hroot, recordLen] at h
    rw [if_neg hqne] at h
    simp only [if_true] at h
    rcases hmf : s.allow_multifile with _ | _
    · simp [hmf] at h
    · simp only [hmf, Bool.not_true, Bool.false_eq_true, if_false] at h
      simp only [hsp, hnf] at h
      have := readParts_bytes s w uri
        (List.insertionSort (fun a b => a ≤ b) sidx.keys)
        (d0.getD (.inventory [] [])) _ swarns out h
      rw [this]

/-- An index document listing the single part location `p`. -/
def idxT : XmlElem := XmlElem.mk (qn SITEMAP_NS "sitemapindex") [] none
  [XmlElem.mk (qn SITEMAP_NS "sitemap") [] none
    [XmlElem.mk (qn SITEMAP_NS "loc") [] (some "p") [] none] none] none

/-- A world serving an index of 5 bytes at one URI, a 7-byte part at `p`,
and a 3-byte empty document everywhere else. -/
def worldC10 : World :=
  { fetch := fun u =>
      if u = "http://e.org/idx" then .ok (some 5, idxT)
      else if u = "p" then .ok (some 7, urlsetTree)
      else .ok (some 3, urlsetTree),
    mtime := fun _ => 0 }

/-- Result of the first single-document read in the C10 witness. -/
def out1C10 : Container × Stats × List Warning :=
  (Container.inventory [] [],
   { resources_created := some 0, sitemaps_created := some 1,
     content_length := some 3, bytes_read := 3 }, [])

/-- Result of the second, accumulated read in the C10 witness. -/
def out2C10 : Container × Stats × List Warning :=
  (Container.inventory [] [],
   { resources_created := some 0, sitemaps_created := some 1,
     content_length := some 3, bytes_read := 6 }, [])

/-- Result of the index read in the C10 witness. -/
def outIC10 : Container × Stats × List Warning :=
  (Container.inventory [] [],
   { resources_created := some 0, sitemaps_created := some 2,
     content_length := some 7, bytes_read := 12 }, [])

/-- C10 witness: byte accounting at concrete reads — a single read of a
3-byte document, a second read accumulating to 6, and an index read
accumulating the index's 5 bytes plus the part's 7. -/
theorem c10_witness :
    initStats.bytes_read = 0
  ∧ (out1C10.2.1.bytes_read = initStats.bytes_read + 3
      ∧ out1C10.2.1.sitemaps_created = some 1)
  ∧ out2C10.2.1.bytes_read = 3 + 3
  ∧ outIC10.2.1.bytes_read = initStats.bytes_read + 5
      + ((List.insertionSort (fun a b => a ≤ b)
          (Container.inventory
            [("p", { uri := "p" })] []).keys).map
          (fun k => (fetchLen worldC10 k).getD 0)).sum :=
  ⟨c10_bytes_read_accumulates.1,
   c10_bytes_read_accumulates.2.1 defaultSitemap worldC10 "a" 3 urlsetTree
     none initStats out1C10 rfl rfl rfl,
   c10_bytes_read_accumulates.2.2.1 defaultSitemap worldC10 "a" "b" 3 3
     urlsetTree urlsetTree none none out1C10 out2C10 rfl rfl rfl rfl rfl rfl,
   c10_bytes_read_accumulates.2.2.2 defaultSitemap worldC10 "http://e.org/idx"
     5 idxT none initStats outIC10
     (Container.inventory [("p", { uri := "p" })] []) 1 [] rfl rfl rfl rfl rfl⟩
